import Mathlib

/-!
# go-magento2: search-criteria encoder and request/response pipeline

A shallow embedding of `search_criteria.go`, `client.go` and `customer.go`.

* Go strings are Lean `String`s, Go `int` is `Int`, slices are `List`s.
* `map[string][]string` (both `url.Values` and `http.Header`) is a function
  from keys to an optional list of values.
* A method with a pointer receiver returns the receiver's new state next to
  its Go result.
* Calls into the Go standard library (`encoding/json`, `net/http`, `ioutil`)
  are parameters of the embedding; a concrete model of `encoding/json` on
  parsed JSON values is given for evaluating the pipeline on examples.
-/

namespace Magento2

/-! ## Library: decimal formatting and multi-valued string maps -/

/-- Decimal text of a Go `int`, as produced by `strconv.Itoa` and by the `%d` verb. -/
def itoa : Int → String
  | Int.ofNat n => Nat.repr n
  | Int.negSucc n => "-" ++ Nat.repr (n + 1)

/-- Go `map[string][]string`, the representation of `url.Values` and `http.Header`. -/
abbrev StringsMap := String → Option (List String)

/-- Go `url.Values`. -/
abbrev Values := StringsMap

/-- Go `http.Header`. -/
abbrev Header := StringsMap

/-- The empty map. -/
def StringsMap.empty : StringsMap := fun _ => none

/-- Go `url.Values.Set`: `v[key] = []string{value}`. -/
def StringsMap.Set (v : StringsMap) (key value : String) : StringsMap :=
  fun k => if k = key then some [value] else v k

/-- Go `http.Header.Add` on a key that is already in canonical form:
`h[key] = append(h[key], value)`. -/
def StringsMap.Add (h : StringsMap) (key value : String) : StringsMap :=
  fun k => if k = key then some ((h k).getD [] ++ [value]) else h k

/-- Go `url.Values.Get`: the first value of the key, or the empty string. -/
def StringsMap.Get (v : StringsMap) (key : String) : String :=
  match v key with
  | some (x :: _) => x
  | _ => ""

/-- Go `url.Values.Has`: whether the key is present. -/
def StringsMap.Has (v : StringsMap) (key : String) : Bool :=
  (v key).isSome

/-! ## Error values -/

/-- Go `APIError` of `client.go`; `StatusCode` carries the struct tag `json:"-"`, `Message`
the tag `json:"message"`. -/
structure APIError where
  StatusCode : Int
  Message : String
deriving DecidableEq, Repr

/-- Go `(*APIError).Error`. -/
def APIError.Error (e : APIError) : String := e.Message

/-- Go `error` values met in the package: an error made by a library call or by
`errors.New`, an error wrapped by `fmt.Errorf("<text>: %w", cause)`, or an `*APIError`. -/
inductive GoError where
  | msg (text : String)
  | wrap (text : String) (cause : GoError)
  | api (e : APIError)
deriving DecidableEq, Repr

/-- Whether the error value is an `*APIError`. -/
def GoError.isAPIError : GoError → Bool
  | .api _ => true
  | _ => false

/-! ## search_criteria.go -/

/-- Go `SearchCriteriaFilter`. -/
structure SearchCriteriaFilter where
  Field : String
  Value : String
  ConditionType : String
deriving DecidableEq, Repr

/-- Go `SearchCriteriaFilterGroup`. -/
structure SearchCriteriaFilterGroup where
  filters : List SearchCriteriaFilter
deriving DecidableEq, Repr

/-- Go `SearchCriteriaSortOrder`. -/
structure SearchCriteriaSortOrder where
  field : String
  direction : String
deriving DecidableEq, Repr

/-- Go `SearchCriteria`; a nil `*int` is `none`. -/
structure SearchCriteria where
  filterGroups : List SearchCriteriaFilterGroup
  sortOrders : List SearchCriteriaSortOrder
  currentPage : Option Int
  pageSize : Option Int
deriving DecidableEq, Repr

/-- Go `NewSearchCriteria`. -/
def NewSearchCriteria : SearchCriteria :=
  { filterGroups := [], sortOrders := [], currentPage := none, pageSize := none }

/-- Go `NewSearchCriteriaFilterGroup`. -/
def NewSearchCriteriaFilterGroup : SearchCriteriaFilterGroup :=
  { filters := [] }

/-- Go `(*SearchCriteriaFilterGroup).AddFilter`: the new group and the returned error. -/
def SearchCriteriaFilterGroup.AddFilter (g : SearchCriteriaFilterGroup)
    (f : SearchCriteriaFilter) : SearchCriteriaFilterGroup × Option GoError :=
  ({ g with filters := g.filters ++ [f] }, none)

/-- Go `(*SearchCriteria).AddFilterGroup`: the new criteria and the returned error. -/
def SearchCriteria.AddFilterGroup (c : SearchCriteria)
    (g : SearchCriteriaFilterGroup) : SearchCriteria × Option GoError :=
  if g.filters.length = 0 then
    (c, some (.msg "the passed in SearchCriteriaFilterGroup doesn't have any filters set, set it using the AddFilter() method"))
  else
    ({ c with filterGroups := c.filterGroups ++ [g] }, none)

/-- Go `(*SearchCriteria).AddSortOrder`: the new criteria and the returned error. -/
def SearchCriteria.AddSortOrder (c : SearchCriteria)
    (s : SearchCriteriaSortOrder) : SearchCriteria × Option GoError :=
  if s.direction ≠ "ASC" ∧ s.direction ≠ "DESC" then
    (c, some (.msg ("invalid sort order direction " ++ s.direction)))
  else
    ({ c with sortOrders := c.sortOrders ++ [s] }, none)

/-- Go `(*SearchCriteria).SetCurrentPage`. -/
def SearchCriteria.SetCurrentPage (c : SearchCriteria) (i : Int) : SearchCriteria :=
  { c with currentPage := some i }

/-- Go `(*SearchCriteria).SetPageSize`. -/
def SearchCriteria.SetPageSize (c : SearchCriteria) (i : Int) : SearchCriteria :=
  { c with pageSize := some i }

/-- The key `fmt.Sprintf("searchCriteria[filterGroups][%d][filters][%d][%s]", i, j, part)`. -/
def filterKey (i j : Nat) (part : String) : String :=
  "searchCriteria[filterGroups][" ++ itoa (Int.ofNat i) ++ "][filters][" ++
    itoa (Int.ofNat j) ++ "][" ++ part ++ "]"

/-- The key `fmt.Sprintf("searchCriteria[sortOrders][%d][%s]", i, part)`. -/
def sortKey (i : Nat) (part : String) : String :=
  "searchCriteria[sortOrders][" ++ itoa (Int.ofNat i) ++ "][" ++ part ++ "]"

/-- The inner loop of `SetQueryParams`: `for j, f := range g.filters`, entered at index `j`. -/
def setFilters (i : Nat) : List SearchCriteriaFilter → Nat → Values → Values
  | [], _, v => v
  | f :: fs, j, v =>
    setFilters i fs (j + 1)
      (((v.Set (filterKey i j "field") f.Field).Set
        (filterKey i j "value") f.Value).Set
        (filterKey i j "conditionType") f.ConditionType)

/-- The first loop of `SetQueryParams`: `for i, g := range c.filterGroups`, entered at index `i`. -/
def setFilterGroups : List SearchCriteriaFilterGroup → Nat → Values → Values
  | [], _, v => v
  | g :: gs, i, v => setFilterGroups gs (i + 1) (setFilters i g.filters 0 v)

/-- The second loop of `SetQueryParams`: `for i, s := range c.sortOrders`, entered at index `i`. -/
def setSortOrders : List SearchCriteriaSortOrder → Nat → Values → Values
  | [], _, v => v
  | s :: ss, i, v =>
    setSortOrders ss (i + 1)
      ((v.Set (sortKey i "field") s.field).Set (sortKey i "direction") s.direction)

/-- The two trailing `if` statements of `SetQueryParams`. -/
def setPagination (c : SearchCriteria) (v : Values) : Values :=
  let v1 := match c.currentPage with
    | some p => v.Set "searchCriteria[currentPage]" (itoa p)
    | none => v
  match c.pageSize with
  | some p => v1.Set "searchCriteria[pageSize]" (itoa p)
  | none => v1

/-- Go `(*SearchCriteria).SetQueryParams` for a non-nil receiver and a non-nil map: the
criteria after the call and the mapping after the call. -/
def SearchCriteria.SetQueryParams (c : SearchCriteria) (v : Values) : SearchCriteria × Values :=
  (c, setPagination c (setSortOrders c.sortOrders 0 (setFilterGroups c.filterGroups 0 v)))

/-- The `Set` calls of the inner loop of `SetQueryParams`, in program order. -/
def filterSets (i : Nat) : List SearchCriteriaFilter → Nat → List (String × String)
  | [], _ => []
  | f :: fs, j =>
    (filterKey i j "field", f.Field) :: (filterKey i j "value", f.Value) ::
      (filterKey i j "conditionType", f.ConditionType) :: filterSets i fs (j + 1)

/-- The `Set` calls of the first loop of `SetQueryParams`, in program order. -/
def groupSets : List SearchCriteriaFilterGroup → Nat → List (String × String)
  | [], _ => []
  | g :: gs, i => filterSets i g.filters 0 ++ groupSets gs (i + 1)

/-- The `Set` calls of the second loop of `SetQueryParams`, in program order. -/
def sortSets : List SearchCriteriaSortOrder → Nat → List (String × String)
  | [], _ => []
  | s :: ss, i =>
    (sortKey i "field", s.field) :: (sortKey i "direction", s.direction) :: sortSets ss (i + 1)

/-- The `Set` calls of the pagination part of `SetQueryParams`, in program order. -/
def pageSets (c : SearchCriteria) : List (String × String) :=
  (match c.currentPage with
    | some p => [("searchCriteria[currentPage]", itoa p)]
    | none => []) ++
  (match c.pageSize with
    | some p => [("searchCriteria[pageSize]", itoa p)]
    | none => [])

/-- Every `Set` call of `SetQueryParams`, in program order. -/
def allSets (c : SearchCriteria) : List (String × String) :=
  groupSets c.filterGroups 0 ++ (sortSets c.sortOrders 0 ++ pageSets c)

/-- Running a sequence of `Set` calls on a mapping. -/
def applySets : List (String × String) → Values → Values
  | [], v => v
  | w :: ws, v => applySets ws (v.Set w.1 w.2)

/-- The value most recently written for the key by a sequence of `Set` calls. -/
def lastSet : List (String × String) → String → Option String
  | [], _ => none
  | w :: ws, k =>
    match lastSet ws k with
    | some x => some x
    | none => if k = w.1 then some w.2 else none

/-- One call of the builder's mutating interface. -/
inductive BuilderOp where
  | addFilterGroup (g : SearchCriteriaFilterGroup)
  | addSortOrder (s : SearchCriteriaSortOrder)
  | setCurrentPage (i : Int)
  | setPageSize (i : Int)
deriving DecidableEq, Repr

/-- The criteria after one builder call, whether the call failed or not. -/
def BuilderOp.apply (c : SearchCriteria) : BuilderOp → SearchCriteria
  | .addFilterGroup g => (c.AddFilterGroup g).1
  | .addSortOrder s => (c.AddSortOrder s).1
  | .setCurrentPage i => c.SetCurrentPage i
  | .setPageSize i => c.SetPageSize i

/-- The criteria after a sequence of builder calls. -/
def runOps (ops : List BuilderOp) (c : SearchCriteria) : SearchCriteria :=
  ops.foldl BuilderOp.apply c

/-- The argument of the last `SetCurrentPage` call in a sequence of builder calls. -/
def lastCurrentPage : List BuilderOp → Option Int
  | [] => none
  | op :: ops =>
    match lastCurrentPage ops with
    | some i => some i
    | none => match op with
      | .setCurrentPage i => some i
      | _ => none

/-- The argument of the last `SetPageSize` call in a sequence of builder calls. -/
def lastPageSize : List BuilderOp → Option Int
  | [] => none
  | op :: ops =>
    match lastPageSize ops with
    | some i => some i
    | none => match op with
      | .setPageSize i => some i
      | _ => none

/-- The entry `(k, x)` is one of the three entries of filter `f` at group `i`, index `j`. -/
def IsFilterEntry (i j : Nat) (f : SearchCriteriaFilter) (k x : String) : Prop :=
  (k = filterKey i j "field" ∧ x = f.Field) ∨
  (k = filterKey i j "value" ∧ x = f.Value) ∨
  (k = filterKey i j "conditionType" ∧ x = f.ConditionType)

/-- The entry `(k, x)` is one of the two entries of sort order `s` at index `i`. -/
def IsSortEntry (i : Nat) (s : SearchCriteriaSortOrder) (k x : String) : Prop :=
  (k = sortKey i "field" ∧ x = s.field) ∨ (k = sortKey i "direction" ∧ x = s.direction)

/-- The entry `(k, x)` belongs to the encoding of `c` as the naming scheme describes it. -/
def IsEntry (c : SearchCriteria) (k x : String) : Prop :=
  (∃ i j g f, c.filterGroups[i]? = some g ∧ g.filters[j]? = some f ∧ IsFilterEntry i j f k x) ∨
  (∃ i s, c.sortOrders[i]? = some s ∧ IsSortEntry i s k x) ∨
  (∃ p, c.currentPage = some p ∧ k = "searchCriteria[currentPage]" ∧ x = itoa p) ∨
  (∃ p, c.pageSize = some p ∧ k = "searchCriteria[pageSize]" ∧ x = itoa p)

/-- Value of a decimal digit character. -/
def digitVal (c : Char) : Nat := c.toNat - 48

/-- Value of a string of decimal digits. -/
def decVal (cs : List Char) : Nat := cs.foldl (fun a c => 10 * a + digitVal c) 0

/-! ## client.go -/

/-- Go constant `contentType`. -/
def contentType : String := "application/json"

/-- Go constant `defaultUserAgent`. -/
def defaultUserAgent : String := "go-magento2"

/-- The parts of a parsed `*url.URL` the package touches: the text it was parsed from and
its query as a mapping (`URL.Query()` reads it, assigning `RawQuery = v.Encode()` writes it). -/
structure URL where
  Text : String
  Query : Values

/-- Go `*http.Request` with bodies of type `W`. -/
structure Request (W : Type) where
  Method : String
  URL : URL
  Header : Header
  Body : Option W

/-- Go `*http.Response`: the observed status code and what `ioutil.ReadAll(resp.Body)`
returns (the content of the body or a read error). -/
structure Response (W : Type) where
  StatusCode : Int
  Body : Except GoError W

/-- Go `*http.Client`: its `Timeout` in seconds and its `Do` method. -/
structure HTTPClient (W : Type) where
  Timeout : Nat
  Do : Request W → Except GoError (Response W)

/-- Go `Client`. -/
structure Client (W : Type) where
  baseURL : String
  apiKey : String
  userAgent : String
  httpClient : HTTPClient W

/-- Go `opt`. -/
abbrev opt (W : Type) := Client W → Client W

/-- The standard-library calls of `newRequest`: `json.Marshal` on payloads of type `P`
giving a body of type `W`, and the two checks of `http.NewRequest` (the method is a
valid token, the URL parses). -/
structure Lib (P W : Type) where
  jsonMarshal : P → Except GoError W
  validMethod : String → Bool
  urlParse : String → Except GoError URL

/-- Go `json.Unmarshal(body, &into)` for a target of type `T`: the target after the call
and the returned error. -/
abbrev Unmarshal (W T : Type) := W → T → T × Option GoError

/-- Go `NewClient`; `dflt` stands for `&http.Client{Timeout: 10 * time.Second}`, whose
`Timeout` field is overwritten here. -/
def NewClient {W : Type} (dflt : HTTPClient W) (baseURL : String) (opts : List (opt W)) :
    Client W :=
  opts.foldl (fun c f => f c)
    { baseURL := baseURL, apiKey := "", userAgent := defaultUserAgent,
      httpClient := { dflt with Timeout := 10 } }

/-- Go `WithHTTPClientOpt`. -/
def WithHTTPClientOpt {W : Type} (httpClient : HTTPClient W) : opt W :=
  fun c => { c with httpClient := httpClient }

/-- Go `WithAPIKeyOpt`. -/
def WithAPIKeyOpt {W : Type} (apiKey : String) : opt W :=
  fun c => { c with apiKey := apiKey }

/-- Go `WithUserAgent`. -/
def WithUserAgent {W : Type} (userAgent : String) : opt W :=
  fun c => { c with userAgent := userAgent }

/-- Go `http.NewRequest`: an empty method means `GET`; the call fails on an invalid method
or an unparsable URL, otherwise it returns a request with an empty header. -/
def httpNewRequest {P W : Type} (lib : Lib P W) (method url : String) (body : Option W) :
    Except GoError (Request W) :=
  let method := if method = "" then "GET" else method
  if lib.validMethod method then
    match lib.urlParse url with
    | .error err => .error err
    | .ok u => .ok { Method := method, URL := u, Header := StringsMap.empty, Body := body }
  else
    .error (.msg ("net/http: invalid method " ++ method))

/-- Go `(*Client).newRequest`. -/
def Client.newRequest {P W : Type} (lib : Lib P W) (c : Client W) (method url : String)
    (payload : Option P) : Except GoError (Request W) :=
  let marshalled : Except GoError (Option W) :=
    match payload with
    | some p =>
      match lib.jsonMarshal p with
      | .error err => .error (.wrap "could not marshal the payload to json" err)
      | .ok b => .ok (some b)
    | none => .ok none
  match marshalled with
  | .error err => .error err
  | .ok reqPayload =>
    match httpNewRequest lib method (c.baseURL ++ url) reqPayload with
    | .error err => .error (.wrap "could not create new http.Request" err)
    | .ok req =>
      let h0 := req.Header
      let h1 := if c.apiKey ≠ "" then h0.Add "Authorization" ("Bearer " ++ c.apiKey) else h0
      let h2 := h1.Add "User-Agent" c.userAgent
      let h3 := h2.Add "Accept" contentType
      let h4 := if payload.isSome then h3.Add "Content-Type" contentType else h3
      .ok { req with Header := h4 }

/-- The closure `readBody` of `(*Client).do`: the target after the call and the error. -/
def readBody {W T : Type} (unmarshal : Unmarshal W T) (resp : Response W) (into : T) :
    T × Option GoError :=
  match resp.Body with
  | .error err => (into, some (.wrap "could not read response body" err))
  | .ok body =>
    match unmarshal body into with
    | (t, some err) => (t, some (.wrap "could not unmarshal body into expected type" err))
    | (t, none) => (t, none)

/-- Go `json.Unmarshal` into an `*APIError`: `StatusCode` is tagged `json:"-"`, so the
decoder reads and writes the `Message` field only; `unmarshalMessage` is the library's
decoding of a body into that field. -/
def unmarshalAPIError {W : Type} (unmarshalMessage : Unmarshal W String) :
    Unmarshal W APIError :=
  fun body e =>
    let r := unmarshalMessage body e.Message
    ({ e with Message := r.1 }, r.2)

/-- Go `(*Client).do` (`do` is a Lean keyword): the returned error and the state of the
target `expectedRespBody` points to after the call (`none` for a nil target). -/
def Client.do_ {W T : Type} (c : Client W) (unmarshalMessage : Unmarshal W String)
    (unmarshal : Unmarshal W T) (req : Request W) (expectedStatusCode : Int)
    (expectedRespBody : Option T) : Option GoError × Option T :=
  match c.httpClient.Do req with
  | .error err => (some (.wrap "could not send request" err), expectedRespBody)
  | .ok resp =>
    if expectedStatusCode ≠ resp.StatusCode then
      let apiErr : APIError := { StatusCode := resp.StatusCode, Message := "" }
      match readBody (unmarshalAPIError unmarshalMessage) resp apiErr with
      | (_, some err) => (some err, expectedRespBody)
      | (apiErr1, none) => (some (.api apiErr1), expectedRespBody)
    else
      match expectedRespBody with
      | some t =>
        let r := readBody unmarshal resp t
        (r.2, some r.1)
      | none => (none, none)

/-! ## customer.go -/

/-- Go `CustomerAddress`. -/
structure CustomerAddress where
  CountryID : String
  Street : List String
  Company : String
  Telephone : String
  Postcode : String
  Firstname : String
  Lastname : String
  City : String
  DefaultBilling : Bool
  DefaultShipping : Bool
deriving DecidableEq, Repr

/-- Go `Customer`. -/
structure Customer where
  ID : Int
  GroupID : Int
  Firstname : String
  Lastname : String
  Email : String
  CreatedIn : String
  StoreID : Int
  WebsiteID : Int
  DefaultBilling : String
  DefaultShipping : String
  Addresses : List CustomerAddress
deriving DecidableEq, Repr

/-- The anonymous struct `respEnvelope` of `(*CustomersClient).Search`. -/
structure CustomersEnvelope where
  Items : List Customer
deriving DecidableEq, Repr

/-- Go constant `customersEndpointPrefix`. -/
def customersEndpointPrefix : String := "/customers"

/-- Go `CustomersClient`. -/
structure CustomersClient (W : Type) where
  c : Client W

/-- Go `(*Client).Customers`. -/
def Client.Customers {W : Type} (c : Client W) : CustomersClient W := { c := c }

/-- Go `(*CustomersClient).Search` for a non-nil `criteria`: the returned slice and error. -/
def CustomersClient.Search {P W : Type} (lib : Lib P W)
    (unmarshalMessage : Unmarshal W String) (unmarshal : Unmarshal W CustomersEnvelope)
    (cc : CustomersClient W) (criteria : SearchCriteria) : List Customer × Option GoError :=
  let endpoint := customersEndpointPrefix ++ "/search"
  match cc.c.newRequest lib "GET" endpoint none with
  | .error err => ([], some (.wrap "could not call client.newRequest()" err))
  | .ok req =>
    let v := (criteria.SetQueryParams req.URL.Query).2
    let req1 : Request W := { req with URL := { req.URL with Query := v } }
    match cc.c.do_ unmarshalMessage unmarshal req1 200 (some { Items := [] }) with
    | (some err, _) => ([], some err)
    | (none, some respEnvelope) => (respEnvelope.Items, none)
    | (none, none) => ([], none)

/-! ## A model of `encoding/json` decoding on parsed JSON values

Used to run the pipeline on example responses. -/

/-- A parsed JSON value; a number literal is an integer literal or a literal with a
fraction or an exponent (kept as text). -/
inductive JSON where
  | null
  | bool (b : Bool)
  | int (n : Int)
  | real (lit : String)
  | str (s : String)
  | arr (items : List JSON)
  | obj (members : List (String × JSON))

/-- The name `encoding/json` gives the kind of a JSON value in its type errors. -/
def JSON.kind : JSON → String
  | .null => "null"
  | .bool _ => "bool"
  | .int _ => "number"
  | .real _ => "number"
  | .str _ => "string"
  | .arr _ => "array"
  | .obj _ => "object"

/-- The content of a body: text that is not valid JSON (`none`) or a JSON value. -/
abbrev Wire := Option JSON

/-- The decoding of one JSON value into a Go value of type `T` that already holds a value:
the new value and the error, if any. -/
abbrev Dec (T : Type) := JSON → T → T × Option GoError

/-- The `*json.UnmarshalTypeError` for a JSON value that does not fit the Go type. -/
def typeError (j : JSON) (goType : String) : GoError :=
  .msg ("json: cannot unmarshal " ++ j.kind ++ " into Go value of type " ++ goType)

/-- The decoder keeps the first error it meets and goes on. -/
def saveError (saved new : Option GoError) : Option GoError :=
  match saved with
  | some e => some e
  | none => new

/-- Decoding into a Go `string`. -/
def decString : Dec String
  | .null, old => (old, none)
  | .str s, _ => (s, none)
  | j, old => (old, some (typeError j "string"))

/-- Decoding into a Go `int64`. -/
def decInt64 : Dec Int
  | .null, old => (old, none)
  | .int n, old =>
    if -9223372036854775808 ≤ n ∧ n ≤ 9223372036854775807 then (n, none)
    else (old, some (typeError (.int n) "int64"))
  | j, old => (old, some (typeError j "int64"))

/-- Decoding into a Go `bool`. -/
def decBool : Dec Bool
  | .null, old => (old, none)
  | .bool b, _ => (b, none)
  | j, old => (old, some (typeError j "bool"))

/-- Decoding into a Go slice that is nil or empty: each element of a JSON array is
decoded into a fresh zero value. -/
def decSlice {T : Type} (zero : T) (d : Dec T) (goType : String) : Dec (List T)
  | .null, _ => ([], none)
  | .arr items, _ =>
    items.foldl (fun acc item =>
      let r := d item zero
      (acc.1 ++ [r.1], saveError acc.2 r.2)) ([], none)
  | j, old => (old, some (typeError j goType))

/-- Case folding of one character of an object key when it is compared with a struct
tag made of lower-case ASCII letters and underscores: upper-case ASCII letters, and the
two other characters (U+017F, U+212A) that fold to an ASCII letter. -/
def foldRune (c : Char) : Char :=
  if c.isUpper then c.toLower
  else if c = Char.ofNat 383 then 's'
  else if c = Char.ofNat 8490 then 'k'
  else c

/-- Case folding of an object key. -/
def foldName (key : String) : String :=
  String.mk (key.data.map foldRune)

/-- Decoding one member of a JSON object into a Go struct: `field` gives, for a folded
key, the decoding into the field whose tag equals it; a member with any other key is
skipped. -/
def decMember {T : Type} (field : String → Option (Dec T)) (acc : T × Option GoError)
    (m : String × JSON) : T × Option GoError :=
  match field (foldName m.1) with
  | some d =>
    let r := d m.2 acc.1
    (r.1, saveError acc.2 r.2)
  | none => acc

/-- Decoding into a Go struct: the members of a JSON object are decoded in the order in
which they appear. -/
def decStruct {T : Type} (field : String → Option (Dec T)) (goType : String) : Dec T
  | .null, old => (old, none)
  | .obj members, old => members.foldl (decMember field) (old, none)
  | j, old => (old, some (typeError j goType))

/-- Go `json.Unmarshal` on a body: a syntax error for an invalid body, otherwise the
decoding of its value. -/
def jsonUnmarshal {T : Type} (d : Dec T) : Unmarshal Wire T
  | none, old => (old, some (.msg "json: syntax error"))
  | some j, old => d j old

/-- The decoding of the fields of `APIError` that are visible to `encoding/json`. -/
def decAPIErrorMessage : Dec String :=
  decStruct (fun key => if key = "message" then some decString else none) "magento2.APIError"

/-- The zero value of `CustomerAddress`. -/
def CustomerAddress.zero : CustomerAddress :=
  { CountryID := "", Street := [], Company := "", Telephone := "", Postcode := "",
    Firstname := "", Lastname := "", City := "", DefaultBilling := false,
    DefaultShipping := false }

/-- The zero value of `Customer`. -/
def Customer.zero : Customer :=
  { ID := 0, GroupID := 0, Firstname := "", Lastname := "", Email := "", CreatedIn := "",
    StoreID := 0, WebsiteID := 0, DefaultBilling := "", DefaultShipping := "",
    Addresses := [] }

/-- The fields of `CustomerAddress` by struct tag. -/
def customerAddressField (key : String) : Option (Dec CustomerAddress) :=
  if key = "country_id" then
    some (fun j a => let r := decString j a.CountryID; ({ a with CountryID := r.1 }, r.2))
  else if key = "street" then
    some (fun j a =>
      let r := decSlice "" decString "[]string" j a.Street; ({ a with Street := r.1 }, r.2))
  else if key = "company" then
    some (fun j a => let r := decString j a.Company; ({ a with Company := r.1 }, r.2))
  else if key = "telephone" then
    some (fun j a => let r := decString j a.Telephone; ({ a with Telephone := r.1 }, r.2))
  else if key = "postcode" then
    some (fun j a => let r := decString j a.Postcode; ({ a with Postcode := r.1 }, r.2))
  else if key = "firstname" then
    some (fun j a => let r := decString j a.Firstname; ({ a with Firstname := r.1 }, r.2))
  else if key = "lastname" then
    some (fun j a => let r := decString j a.Lastname; ({ a with Lastname := r.1 }, r.2))
  else if key = "city" then
    some (fun j a => let r := decString j a.City; ({ a with City := r.1 }, r.2))
  else if key = "default_billing" then
    some (fun j a =>
      let r := decBool j a.DefaultBilling; ({ a with DefaultBilling := r.1 }, r.2))
  else if key = "default_shipping" then
    some (fun j a =>
      let r := decBool j a.DefaultShipping; ({ a with DefaultShipping := r.1 }, r.2))
  else none

/-- Decoding into a `CustomerAddress`. -/
def decCustomerAddress : Dec CustomerAddress :=
  decStruct customerAddressField "magento2.CustomerAddress"

/-- The fields of `Customer` by struct tag. -/
def customerField (key : String) : Option (Dec Customer) :=
  if key = "id" then
    some (fun j c => let r := decInt64 j c.ID; ({ c with ID := r.1 }, r.2))
  else if key = "group_id" then
    some (fun j c => let r := decInt64 j c.GroupID; ({ c with GroupID := r.1 }, r.2))
  else if key = "firstname" then
    some (fun j c => let r := decString j c.Firstname; ({ c with Firstname := r.1 }, r.2))
  else if key = "lastname" then
    some (fun j c => let r := decString j c.Lastname; ({ c with Lastname := r.1 }, r.2))
  else if key = "email" then
    some (fun j c => let r := decString j c.Email; ({ c with Email := r.1 }, r.2))
  else if key = "created_in" then
    some (fun j c => let r := decString j c.CreatedIn; ({ c with CreatedIn := r.1 }, r.2))
  else if key = "store_id" then
    some (fun j c => let r := decInt64 j c.StoreID; ({ c with StoreID := r.1 }, r.2))
  else if key = "website_id" then
    some (fun j c => let r := decInt64 j c.WebsiteID; ({ c with WebsiteID := r.1 }, r.2))
  else if key = "default_billing" then
    some (fun j c =>
      let r := decString j c.DefaultBilling; ({ c with DefaultBilling := r.1 }, r.2))
  else if key = "default_shipping" then
    some (fun j c =>
      let r := decString j c.DefaultShipping; ({ c with DefaultShipping := r.1 }, r.2))
  else if key = "addresses" then
    some (fun j c =>
      let r := decSlice CustomerAddress.zero decCustomerAddress "[]magento2.CustomerAddress"
        j c.Addresses
      ({ c with Addresses := r.1 }, r.2))
  else none

/-- Decoding into a `Customer`. -/
def decCustomer : Dec Customer :=
  decStruct customerField "magento2.Customer"

/-- Decoding into the envelope of `Search`. -/
def decCustomersEnvelope : Dec CustomersEnvelope :=
  decStruct (fun key =>
    if key = "items" then
      some (fun j e =>
        let r := decSlice Customer.zero decCustomer "[]magento2.Customer" j e.Items
        ({ e with Items := r.1 }, r.2))
    else none) "struct"

/-! ## Fixtures for running the pipeline on examples -/

/-- An HTTP client that answers every request with the given status code and body. -/
def cannedHTTP (status : Int) (body : Wire) : HTTPClient Wire :=
  { Timeout := 10, Do := fun _ => .ok { StatusCode := status, Body := .ok body } }

/-- Library calls for the examples: payloads are JSON values already, the methods are the
HTTP verbs, every URL parses to a URL without a query. -/
def exampleLib : Lib JSON Wire :=
  { jsonMarshal := fun p => .ok (some p),
    validMethod := fun m => m = "GET" ∨ m = "POST" ∨ m = "PUT" ∨ m = "DELETE",
    urlParse := fun u => .ok { Text := u, Query := StringsMap.empty } }

/-- The error body of the specification's example: `{"message":"Resource not found"}`. -/
def notFoundBody : Wire :=
  some (.obj [("message", .str "Resource not found")])

/-- An error body with two keys that match the `message` tag:
`{"message":"first","Message":"second"}`. -/
def twoMessageKeysBody : Wire :=
  some (.obj [("message", .str "first"), ("Message", .str "second")])

/-- An error body in which a second key that matches the `message` tag holds a number:
`{"message":"m","MESSAGE":5}`. -/
def numberMessageBody : Wire :=
  some (.obj [("message", .str "m"), ("MESSAGE", .int 5)])

/-- An error body with members around the message:
`{"code":404,"message":"Resource not found","trace":null}`. -/
def paddedNotFoundBody : Wire :=
  some (.obj [("code", .int 404), ("message", .str "Resource not found"), ("trace", .null)])

/-- The success body of the specification's example: `{"items":[{"id":1}]}`. -/
def oneCustomerBody : Wire :=
  some (.obj [("items", .arr [.obj [("id", .int 1)]])])

/-- The criteria of the specification's index example: groups `G0 = (f0, f1)`, `G1 = (f2)`,
with field names in descending alphabetical order. -/
def indexExample : SearchCriteria :=
  { filterGroups :=
      [ { filters := [ { Field := "zip", Value := "1", ConditionType := "eq" },
                       { Field := "name", Value := "%a%", ConditionType := "like" } ] },
        { filters := [ { Field := "age", Value := "18", ConditionType := "gt" } ] } ],
    sortOrders := [ { field := "name", direction := "ASC" } ],
    currentPage := none, pageSize := none }

/-- A client configured with the credential `"tok123"`. -/
def tokClient : Client Wire :=
  NewClient (cannedHTTP 200 oneCustomerBody) "http://shop.test/rest/V1" [WithAPIKeyOpt "tok123"]

/-- A client configured without a credential. -/
def anonClient : Client Wire :=
  NewClient (cannedHTTP 200 oneCustomerBody) "http://shop.test/rest/V1" []

/-- The request `tokClient` builds for `GET /customers/search` without a payload. -/
def tokRequest : Request Wire :=
  { Method := "GET",
    URL := { Text := "http://shop.test/rest/V1/customers/search", Query := StringsMap.empty },
    Header := ((StringsMap.empty.Add "Authorization" "Bearer tok123").Add
      "User-Agent" "go-magento2").Add "Accept" "application/json",
    Body := none }

/-- The request `anonClient` builds for `POST /customers` with the payload `{}`. -/
def anonRequest : Request Wire :=
  { Method := "POST",
    URL := { Text := "http://shop.test/rest/V1/customers", Query := StringsMap.empty },
    Header := ((StringsMap.empty.Add "User-Agent" "go-magento2").Add
      "Accept" "application/json").Add "Content-Type" "application/json",
    Body := some (some (.obj [])) }

/-! ## Decimal text and key names -/

theorem toDigitsCore_acc (b : Nat) : ∀ (f n : Nat) (ds : List Char),
    Nat.toDigitsCore b f n ds = Nat.toDigitsCore b f n [] ++ ds := by
  intro f
  induction f with
  | zero => intro n ds; simp [Nat.toDigitsCore]
  | succ f ih =>
    intro n ds
    simp only [Nat.toDigitsCore]
    split
    · simp
    · rw [ih (n / b) (Nat.digitChar (n % b) :: ds), ih (n / b) [Nat.digitChar (n % b)]]
      simp

theorem digitVal_digitChar (d : Nat) (h : d < 10) : digitVal (Nat.digitChar d) = d := by
  interval_cases d <;> rfl

theorem digitChar_isDigit (d : Nat) (h : d < 10) : (Nat.digitChar d).isDigit = true := by
  interval_cases d <;> rfl

theorem decVal_toDigitsCore : ∀ (f n : Nat), n < f →
    decVal (Nat.toDigitsCore 10 f n []) = n := by
  intro f
  induction f with
  | zero => intro n h; omega
  | succ f ih =>
    intro n h
    simp only [Nat.toDigitsCore]
    split
    · rename_i h0
      simp only [decVal, List.foldl]
      rw [digitVal_digitChar _ (Nat.mod_lt _ (by norm_num))]
      omega
    · rename_i h0
      rw [toDigitsCore_acc]
      have := ih (n / 10) (by omega)
      simp only [decVal] at this ⊢
      rw [List.foldl_append, this]
      simp only [List.foldl]
      rw [digitVal_digitChar _ (Nat.mod_lt _ (by norm_num))]
      omega

theorem isDigit_toDigitsCore : ∀ (f n : Nat), ∀ c ∈ Nat.toDigitsCore 10 f n [], c.isDigit = true := by
  intro f
  induction f with
  | zero => intro n c h; simp [Nat.toDigitsCore] at h
  | succ f ih =>
    intro n c h
    simp only [Nat.toDigitsCore] at h
    split at h
    · simp at h; subst h; exact digitChar_isDigit _ (Nat.mod_lt _ (by norm_num))
    · rw [toDigitsCore_acc] at h
      simp at h
      rcases h with h | h
      · exact ih _ _ h
      · subst h; exact digitChar_isDigit _ (Nat.mod_lt _ (by norm_num))

theorem repr_data_injective (a b : Nat) (h : (Nat.repr a).data = (Nat.repr b).data) : a = b := by
  simp only [Nat.repr, Nat.toDigits, List.asString] at h
  have ha := decVal_toDigitsCore (a + 1) a (by omega)
  have hb := decVal_toDigitsCore (b + 1) b (by omega)
  rw [h] at ha
  omega

theorem repr_isDigit (a : Nat) : ∀ c ∈ (Nat.repr a).data, c.isDigit = true := by
  simp only [Nat.repr, Nat.toDigits, List.asString]
  exact isDigit_toDigitsCore _ _

/-- The text of a non-negative `int` is made of decimal digits and reads back as the
number. -/
theorem itoa_decimal (n : Nat) :
    (∀ c ∈ (itoa (Int.ofNat n)).data, c.isDigit = true) ∧
    decVal (itoa (Int.ofNat n)).data = n := by
  refine ⟨repr_isDigit n, ?_⟩
  simp only [itoa, Nat.repr, Nat.toDigits, List.asString]
  exact decVal_toDigitsCore (n + 1) n (by omega)

/-- Splitting at the first occurrence of a separator is unique. -/
theorem split_unique (c : Char) : ∀ (a a' r r' : List Char),
    (∀ x ∈ a, x ≠ c) → (∀ x ∈ a', x ≠ c) → a ++ c :: r = a' ++ c :: r' → a = a' ∧ r = r' := by
  intro a
  induction a with
  | nil =>
    intro a' r r' _ h' h
    cases a' with
    | nil => simpa using h
    | cons y ys =>
      simp at h
      exact absurd h.1.symm (h' y (by simp))
  | cons x xs ih =>
    intro a' r r' h1 h' h
    cases a' with
    | nil =>
      simp at h
      exact absurd h.1 (h1 x (by simp))
    | cons y ys =>
      simp at h
      obtain ⟨hxy, ht⟩ := h
      have := ih ys r r' (fun z hz => h1 z (by simp [hz])) (fun z hz => h' z (by simp [hz])) ht
      exact ⟨by rw [hxy, this.1], this.2⟩

theorem repr_no_bracket (a : Nat) : ∀ c ∈ (Nat.repr a).data, c ≠ ']' := by
  intro c hc h
  have := repr_isDigit a c hc
  subst h
  simp at this

theorem filterKey_data (i j : Nat) (p : String) :
    (filterKey i j p).data = "searchCriteria[filterGroups][".data ++ ((Nat.repr i).data ++
      ']' :: ("[filters][".data ++ ((Nat.repr j).data ++ ']' :: ('[' :: (p.data ++ [']']))))) := by
  simp [filterKey, itoa, String.data_append]

theorem filterKey_inj (i j i' j' : Nat) (p p' : String)
    (h : filterKey i j p = filterKey i' j' p') : i = i' ∧ j = j' ∧ p = p' := by
  have h := congrArg String.data h
  rw [filterKey_data, filterKey_data] at h
  have h1 := List.append_cancel_left h
  obtain ⟨hi, h2⟩ := split_unique ']' _ _ _ _ (repr_no_bracket i) (repr_no_bracket i') h1
  have h3 := List.append_cancel_left h2
  obtain ⟨hj, h4⟩ := split_unique ']' _ _ _ _ (repr_no_bracket j) (repr_no_bracket j') h3
  simp at h4
  exact ⟨repr_data_injective _ _ hi, repr_data_injective _ _ hj, String.ext h4⟩

theorem sortKey_data (i : Nat) (p : String) :
    (sortKey i p).data = "searchCriteria[sortOrders][".data ++ ((Nat.repr i).data ++
      ']' :: ('[' :: (p.data ++ [']']))) := by
  simp [sortKey, itoa, String.data_append]

theorem sortKey_inj (i i' : Nat) (p p' : String)
    (h : sortKey i p = sortKey i' p') : i = i' ∧ p = p' := by
  have h := congrArg String.data h
  rw [sortKey_data, sortKey_data] at h
  have h1 := List.append_cancel_left h
  obtain ⟨hi, h2⟩ := split_unique ']' _ _ _ _ (repr_no_bracket i) (repr_no_bracket i') h1
  simp at h2
  exact ⟨repr_data_injective _ _ hi, String.ext h2⟩

theorem filterKey_ne_sortKey (i j i' : Nat) (p p' : String) :
    filterKey i j p ≠ sortKey i' p' := by
  intro h
  have h := congrArg String.data h
  rw [filterKey_data, sortKey_data] at h
  simp at h

theorem filterKey_ne_currentPage (i j : Nat) (p : String) :
    filterKey i j p ≠ "searchCriteria[currentPage]" := by
  intro h
  have h := congrArg String.data h
  rw [filterKey_data] at h
  simp at h

theorem filterKey_ne_pageSize (i j : Nat) (p : String) :
    filterKey i j p ≠ "searchCriteria[pageSize]" := by
  intro h
  have h := congrArg String.data h
  rw [filterKey_data] at h
  simp at h

theorem sortKey_ne_currentPage (i : Nat) (p : String) :
    sortKey i p ≠ "searchCriteria[currentPage]" := by
  intro h
  have h := congrArg String.data h
  rw [sortKey_data] at h
  simp at h

theorem sortKey_ne_pageSize (i : Nat) (p : String) :
    sortKey i p ≠ "searchCriteria[pageSize]" := by
  intro h
  have h := congrArg String.data h
  rw [sortKey_data] at h
  simp at h

/-! ## Sequences of `Set` calls -/

theorem applySets_apply (ws : List (String × String)) : ∀ (v : Values) (k : String),
    applySets ws v k = match lastSet ws k with
      | some x => some [x]
      | none => v k := by
  induction ws with
  | nil => intro v k; simp [applySets, lastSet]
  | cons w ws ih =>
    intro v k
    simp only [applySets, lastSet]
    rw [ih]
    cases h : lastSet ws k with
    | some x => simp
    | none =>
      simp only [StringsMap.Set]
      split <;> simp_all

theorem applySets_append (a b : List (String × String)) : ∀ v : Values,
    applySets (a ++ b) v = applySets b (applySets a v) := by
  induction a with
  | nil => intro v; rfl
  | cons w ws ih => intro v; simp only [List.cons_append, applySets]; exact ih _

theorem applySets_idem (ws : List (String × String)) (v : Values) :
    applySets ws (applySets ws v) = applySets ws v := by
  funext k
  rw [applySets_apply ws (applySets ws v) k, applySets_apply ws v k]
  cases h : lastSet ws k <;> simp

theorem setFilters_eq (i : Nat) (fs : List SearchCriteriaFilter) : ∀ (j : Nat) (v : Values),
    setFilters i fs j v = applySets (filterSets i fs j) v := by
  induction fs with
  | nil => intro j v; rfl
  | cons f fs ih => intro j v; simp only [setFilters, filterSets, applySets]; exact ih _ _

theorem setFilterGroups_eq (gs : List SearchCriteriaFilterGroup) : ∀ (i : Nat) (v : Values),
    setFilterGroups gs i v = applySets (groupSets gs i) v := by
  induction gs with
  | nil => intro i v; rfl
  | cons g gs ih =>
    intro i v
    simp only [setFilterGroups, groupSets]
    rw [applySets_append, ih, setFilters_eq]

theorem setSortOrders_eq (ss : List SearchCriteriaSortOrder) : ∀ (i : Nat) (v : Values),
    setSortOrders ss i v = applySets (sortSets ss i) v := by
  induction ss with
  | nil => intro i v; rfl
  | cons s ss ih => intro i v; simp only [setSortOrders, sortSets, applySets]; exact ih _ _

theorem setPagination_eq (c : SearchCriteria) (v : Values) :
    setPagination c v = applySets (pageSets c) v := by
  unfold setPagination pageSets
  cases c.currentPage <;> cases c.pageSize <;> rfl

theorem SetQueryParams_eq (c : SearchCriteria) (v : Values) :
    (c.SetQueryParams v).2 = applySets (allSets c) v := by
  simp only [SearchCriteria.SetQueryParams, allSets, applySets_append, setPagination_eq,
    setSortOrders_eq, setFilterGroups_eq]

theorem lastSet_mem (ws : List (String × String)) (k x : String) :
    lastSet ws k = some x → (k, x) ∈ ws := by
  induction ws with
  | nil => simp [lastSet]
  | cons w ws ih =>
    simp only [lastSet]
    cases h : lastSet ws k with
    | some y =>
      intro hy
      simp only [Option.some.injEq] at hy
      subst hy
      exact List.mem_cons_of_mem _ (ih h)
    | none =>
      simp only
      split
      · rename_i hk
        intro hx
        simp only [Option.some.injEq] at hx
        subst hx; subst hk
        exact List.mem_cons_self _ _
      · intro hx; cases hx

theorem lastSet_none (ws : List (String × String)) (k : String) :
    lastSet ws k = none → ∀ x, (k, x) ∉ ws := by
  induction ws with
  | nil => simp
  | cons w ws ih =>
    simp only [lastSet]
    cases h : lastSet ws k with
    | some y => intro hy; cases hy
    | none =>
      simp only
      split
      · intro hx; cases hx
      · rename_i hk
        intro _ x hx
        rcases List.mem_cons.mp hx with hx | hx
        · exact hk (by rw [← hx])
        · exact ih h x hx

/-- A key written with one value only ends up with that value. -/
theorem lastSet_of_functional (ws : List (String × String)) (k x : String)
    (hf : ∀ y, (k, y) ∈ ws → y = x) (hm : (k, x) ∈ ws) : lastSet ws k = some x := by
  cases h : lastSet ws k with
  | some y => rw [hf y (lastSet_mem ws k y h)]
  | none => exact absurd hm (lastSet_none ws k h x)

/-! ## The entries written by `SetQueryParams` -/

theorem mem_filterSets (i : Nat) (fs : List SearchCriteriaFilter) : ∀ (j0 : Nat) (k x : String),
    (k, x) ∈ filterSets i fs j0 ↔ ∃ j f, fs[j]? = some f ∧ IsFilterEntry i (j0 + j) f k x := by
  induction fs with
  | nil => intro j0 k x; simp [filterSets]
  | cons f fs ih =>
    intro j0 k x
    simp only [filterSets, List.mem_cons, Prod.mk.injEq, ih]
    constructor
    · rintro (h | h | h | ⟨j, f', hj, he⟩)
      · exact ⟨0, f, by simp, Or.inl h⟩
      · exact ⟨0, f, by simp, Or.inr (Or.inl h)⟩
      · exact ⟨0, f, by simp, Or.inr (Or.inr h)⟩
      · refine ⟨j + 1, f', by simpa using hj, ?_⟩
        have : j0 + (j + 1) = j0 + 1 + j := by omega
        rw [this]; exact he
    · rintro ⟨j, f', hj, he⟩
      cases j with
      | zero =>
        simp only [List.getElem?_cons_zero, Option.some.injEq] at hj
        subst hj
        rcases he with h | h | h
        · exact Or.inl h
        · exact Or.inr (Or.inl h)
        · exact Or.inr (Or.inr (Or.inl h))
      | succ j =>
        simp only [List.getElem?_cons_succ] at hj
        refine Or.inr (Or.inr (Or.inr ⟨j, f', hj, ?_⟩))
        have : j0 + 1 + j = j0 + (j + 1) := by omega
        rw [this]; exact he

theorem mem_groupSets (gs : List SearchCriteriaFilterGroup) : ∀ (i0 : Nat) (k x : String),
    (k, x) ∈ groupSets gs i0 ↔
      ∃ i j g f, gs[i]? = some g ∧ g.filters[j]? = some f ∧ IsFilterEntry (i0 + i) j f k x := by
  induction gs with
  | nil => intro i0 k x; simp [groupSets]
  | cons g gs ih =>
    intro i0 k x
    simp only [groupSets, List.mem_append, ih, mem_filterSets]
    constructor
    · rintro (⟨j, f, hj, he⟩ | ⟨i, j, g', f, hi, hj, he⟩)
      · exact ⟨0, j, g, f, by simp, hj, by simpa using he⟩
      · refine ⟨i + 1, j, g', f, by simpa using hi, hj, ?_⟩
        have : i0 + (i + 1) = i0 + 1 + i := by omega
        rw [this]; exact he
    · rintro ⟨i, j, g', f, hi, hj, he⟩
      cases i with
      | zero =>
        simp only [List.getElem?_cons_zero, Option.some.injEq] at hi
        subst hi
        exact Or.inl ⟨j, f, hj, by simpa using he⟩
      | succ i =>
        simp only [List.getElem?_cons_succ] at hi
        refine Or.inr ⟨i, j, g', f, hi, hj, ?_⟩
        have : i0 + 1 + i = i0 + (i + 1) := by omega
        rw [this]; exact he

theorem mem_sortSets (ss : List SearchCriteriaSortOrder) : ∀ (i0 : Nat) (k x : String),
    (k, x) ∈ sortSets ss i0 ↔ ∃ i s, ss[i]? = some s ∧ IsSortEntry (i0 + i) s k x := by
  induction ss with
  | nil => intro i0 k x; simp [sortSets]
  | cons s ss ih =>
    intro i0 k x
    simp only [sortSets, List.mem_cons, Prod.mk.injEq, ih]
    constructor
    · rintro (h | h | ⟨i, s', hi, he⟩)
      · exact ⟨0, s, by simp, Or.inl h⟩
      · exact ⟨0, s, by simp, Or.inr h⟩
      · refine ⟨i + 1, s', by simpa using hi, ?_⟩
        have : i0 + (i + 1) = i0 + 1 + i := by omega
        rw [this]; exact he
    · rintro ⟨i, s', hi, he⟩
      cases i with
      | zero =>
        simp only [List.getElem?_cons_zero, Option.some.injEq] at hi
        subst hi
        rcases he with h | h
        · exact Or.inl h
        · exact Or.inr (Or.inl h)
      | succ i =>
        simp only [List.getElem?_cons_succ] at hi
        refine Or.inr (Or.inr ⟨i, s', hi, ?_⟩)
        have : i0 + 1 + i = i0 + (i + 1) := by omega
        rw [this]; exact he

theorem mem_pageSets (c : SearchCriteria) (k x : String) :
    (k, x) ∈ pageSets c ↔
      (∃ p, c.currentPage = some p ∧ k = "searchCriteria[currentPage]" ∧ x = itoa p) ∨
      (∃ p, c.pageSize = some p ∧ k = "searchCriteria[pageSize]" ∧ x = itoa p) := by
  unfold pageSets
  cases c.currentPage <;> cases c.pageSize <;> simp

theorem mem_allSets (c : SearchCriteria) (k x : String) :
    (k, x) ∈ allSets c ↔ IsEntry c k x := by
  simp only [allSets, List.mem_append, mem_groupSets, mem_sortSets, mem_pageSets, IsEntry,
    Nat.zero_add]

/-- No key is given two different values by the naming scheme. -/
theorem IsEntry_functional (c : SearchCriteria) (k x y : String)
    (hx : IsEntry c k x) (hy : IsEntry c k y) : x = y := by
  rcases hx with ⟨i, j, g, f, hi, hj, he⟩ | ⟨i, s, hi, he⟩ | ⟨p, hp, hk, hv⟩ | ⟨p, hp, hk, hv⟩
  · rcases hy with ⟨i', j', g', f', hi', hj', he'⟩ | ⟨i', s', _, he'⟩ | ⟨_, _, hk', _⟩ |
      ⟨_, _, hk', _⟩
    · have key : ∀ p p', k = filterKey i j p → k = filterKey i' j' p' →
          i = i' ∧ j = j' ∧ p = p' := fun p p' h h' => filterKey_inj _ _ _ _ _ _ (h ▸ h')
      have same : ∀ p p', k = filterKey i j p → k = filterKey i' j' p' → f = f' := by
        intro p p' h h'
        obtain ⟨h1, h2, _⟩ := key p p' h h'
        subst h1; subst h2
        rw [hi] at hi'; cases hi'
        rw [hj] at hj'; cases hj'
        rfl
      rcases he with ⟨h, hv⟩ | ⟨h, hv⟩ | ⟨h, hv⟩ <;>
        rcases he' with ⟨h', hv'⟩ | ⟨h', hv'⟩ | ⟨h', hv'⟩ <;>
        first
          | (exact absurd (key _ _ h h').2.2 (by decide))
          | (have hff := same _ _ h h'; subst hff; rw [hv, hv'])
    · rcases he with ⟨h, _⟩ | ⟨h, _⟩ | ⟨h, _⟩ <;> rcases he' with ⟨h', _⟩ | ⟨h', _⟩ <;>
        exact absurd (h ▸ h') (filterKey_ne_sortKey _ _ _ _ _)
    · rcases he with ⟨h, _⟩ | ⟨h, _⟩ | ⟨h, _⟩ <;>
        exact absurd (h ▸ hk') (filterKey_ne_currentPage _ _ _)
    · rcases he with ⟨h, _⟩ | ⟨h, _⟩ | ⟨h, _⟩ <;>
        exact absurd (h ▸ hk') (filterKey_ne_pageSize _ _ _)
  · rcases hy with ⟨i', j', g', f', _, _, he'⟩ | ⟨i', s', hi', he'⟩ | ⟨_, _, hk', _⟩ |
      ⟨_, _, hk', _⟩
    · rcases he with ⟨h, _⟩ | ⟨h, _⟩ <;> rcases he' with ⟨h', _⟩ | ⟨h', _⟩ | ⟨h', _⟩ <;>
        exact absurd (h' ▸ h) (filterKey_ne_sortKey _ _ _ _ _)
    · have key : ∀ p p', k = sortKey i p → k = sortKey i' p' → i = i' ∧ p = p' :=
        fun p p' h h' => sortKey_inj _ _ _ _ (h ▸ h')
      have same : ∀ p p', k = sortKey i p → k = sortKey i' p' → s = s' := by
        intro p p' h h'
        obtain ⟨h1, _⟩ := key p p' h h'
        subst h1
        rw [hi] at hi'; cases hi'
        rfl
      rcases he with ⟨h, hv⟩ | ⟨h, hv⟩ <;> rcases he' with ⟨h', hv'⟩ | ⟨h', hv'⟩ <;>
        first
          | (exact absurd (key _ _ h h').2 (by decide))
          | (have hff := same _ _ h h'; subst hff; rw [hv, hv'])
    · rcases he with ⟨h, _⟩ | ⟨h, _⟩ <;> exact absurd (h ▸ hk') (sortKey_ne_currentPage _ _)
    · rcases he with ⟨h, _⟩ | ⟨h, _⟩ <;> exact absurd (h ▸ hk') (sortKey_ne_pageSize _ _)
  · rcases hy with ⟨i', j', g', f', _, _, he'⟩ | ⟨i', s', _, he'⟩ | ⟨p', hp', _, hv'⟩ |
      ⟨_, _, hk', _⟩
    · rcases he' with ⟨h', _⟩ | ⟨h', _⟩ | ⟨h', _⟩ <;>
        exact absurd (h' ▸ hk) (filterKey_ne_currentPage _ _ _)
    · rcases he' with ⟨h', _⟩ | ⟨h', _⟩ <;> exact absurd (h' ▸ hk) (sortKey_ne_currentPage _ _)
    · rw [hp] at hp'; cases hp'; rw [hv, hv']
    · rw [hk] at hk'; exact absurd hk' (by decide)
  · rcases hy with ⟨i', j', g', f', _, _, he'⟩ | ⟨i', s', _, he'⟩ | ⟨_, _, hk', _⟩ |
      ⟨p', hp', _, hv'⟩
    · rcases he' with ⟨h', _⟩ | ⟨h', _⟩ | ⟨h', _⟩ <;>
        exact absurd (h' ▸ hk) (filterKey_ne_pageSize _ _ _)
    · rcases he' with ⟨h', _⟩ | ⟨h', _⟩ <;> exact absurd (h' ▸ hk) (sortKey_ne_pageSize _ _)
    · rw [hk] at hk'; exact absurd hk' (by decide)
    · rw [hp] at hp'; cases hp'; rw [hv, hv']

/-- Encoding into an empty mapping: a key holds exactly the single value the naming
scheme gives it. -/
theorem encode_some_iff (c : SearchCriteria) (k x : String) :
    (c.SetQueryParams StringsMap.empty).2 k = some [x] ↔ IsEntry c k x := by
  rw [SetQueryParams_eq, applySets_apply]
  constructor
  · intro h
    cases hl : lastSet (allSets c) k with
    | some y =>
      rw [hl] at h
      simp only [Option.some.injEq, List.cons.injEq, and_true] at h
      subst h
      exact (mem_allSets c k y).mp (lastSet_mem _ _ _ hl)
    | none =>
      rw [hl] at h
      simp [StringsMap.empty] at h
  · intro h
    rw [lastSet_of_functional (allSets c) k x
      (fun y hy => IsEntry_functional c k y x ((mem_allSets c k y).mp hy) h)
      ((mem_allSets c k x).mpr h)]

/-- Encoding into an empty mapping: every key that is present holds one entry of the
naming scheme. -/
theorem encode_present (c : SearchCriteria) (k : String)
    (h : (c.SetQueryParams StringsMap.empty).2 k ≠ none) :
    ∃ x, (c.SetQueryParams StringsMap.empty).2 k = some [x] ∧ IsEntry c k x := by
  rw [SetQueryParams_eq, applySets_apply] at h
  cases hl : lastSet (allSets c) k with
  | some y =>
    refine ⟨y, ?_, (mem_allSets c k y).mp (lastSet_mem _ _ _ hl)⟩
    rw [SetQueryParams_eq, applySets_apply, hl]
  | none =>
    rw [hl] at h
    exact absurd rfl h

/-- Encoding into an empty mapping: the three keys of an attached filter. -/
theorem encode_filter (c : SearchCriteria) (i j : Nat) (g : SearchCriteriaFilterGroup)
    (f : SearchCriteriaFilter) (hi : c.filterGroups[i]? = some g)
    (hj : g.filters[j]? = some f) :
    (c.SetQueryParams StringsMap.empty).2 (filterKey i j "field") = some [f.Field] ∧
    (c.SetQueryParams StringsMap.empty).2 (filterKey i j "value") = some [f.Value] ∧
    (c.SetQueryParams StringsMap.empty).2 (filterKey i j "conditionType") =
      some [f.ConditionType] :=
  ⟨(encode_some_iff c _ _).mpr (Or.inl ⟨i, j, g, f, hi, hj, Or.inl ⟨rfl, rfl⟩⟩),
    (encode_some_iff c _ _).mpr (Or.inl ⟨i, j, g, f, hi, hj, Or.inr (Or.inl ⟨rfl, rfl⟩)⟩),
    (encode_some_iff c _ _).mpr (Or.inl ⟨i, j, g, f, hi, hj, Or.inr (Or.inr ⟨rfl, rfl⟩)⟩)⟩

/-- Encoding into an empty mapping: the current-page key holds the decimal text of the
current page when one is set and is absent otherwise. -/
theorem encode_currentPage (c : SearchCriteria) :
    (c.SetQueryParams StringsMap.empty).2 "searchCriteria[currentPage]" =
      c.currentPage.map (fun p => [itoa p]) := by
  cases hp : c.currentPage with
  | some p => exact (encode_some_iff c _ _).mpr (Or.inr (Or.inr (Or.inl ⟨p, hp, rfl, rfl⟩)))
  | none =>
    by_contra hne
    obtain ⟨x, _, he⟩ := encode_present c _ hne
    rcases he with ⟨i, j, g, f, _, _, he⟩ | ⟨i, s, _, he⟩ | ⟨p, hp', _, _⟩ | ⟨p, _, hk, _⟩
    · rcases he with ⟨h, _⟩ | ⟨h, _⟩ | ⟨h, _⟩ <;>
        exact filterKey_ne_currentPage _ _ _ h.symm
    · rcases he with ⟨h, _⟩ | ⟨h, _⟩ <;> exact sortKey_ne_currentPage _ _ h.symm
    · rw [hp] at hp'; cases hp'
    · exact absurd hk (by decide)

/-- Encoding into an empty mapping: the page-size key holds the decimal text of the page
size when one is set and is absent otherwise. -/
theorem encode_pageSize (c : SearchCriteria) :
    (c.SetQueryParams StringsMap.empty).2 "searchCriteria[pageSize]" =
      c.pageSize.map (fun p => [itoa p]) := by
  cases hp : c.pageSize with
  | some p => exact (encode_some_iff c _ _).mpr (Or.inr (Or.inr (Or.inr ⟨p, hp, rfl, rfl⟩)))
  | none =>
    by_contra hne
    obtain ⟨x, _, he⟩ := encode_present c _ hne
    rcases he with ⟨i, j, g, f, _, _, he⟩ | ⟨i, s, _, he⟩ | ⟨p, _, hk, _⟩ | ⟨p, hp', _, _⟩
    · rcases he with ⟨h, _⟩ | ⟨h, _⟩ | ⟨h, _⟩ <;>
        exact filterKey_ne_pageSize _ _ _ h.symm
    · rcases he with ⟨h, _⟩ | ⟨h, _⟩ <;> exact sortKey_ne_pageSize _ _ h.symm
    · exact absurd hk (by decide)
    · rw [hp] at hp'; cases hp'

/-! ## The search-criteria builder and encoder -/

/-- C1. Encoding into an empty mapping follows the naming scheme: the three keys of group
`i`, filter `j` hold exactly the field, value and condition type of the `j`-th filter of
the `i`-th group, the two keys of sort order `i` hold its field and direction, every key
that is present is one of these or a pagination key, and distinct indices or parts give
distinct keys. -/
theorem setQueryParams_index_fidelity (c : SearchCriteria) :
    (∀ i j g f, c.filterGroups[i]? = some g → g.filters[j]? = some f →
      (c.SetQueryParams StringsMap.empty).2 (filterKey i j "field") = some [f.Field] ∧
      (c.SetQueryParams StringsMap.empty).2 (filterKey i j "value") = some [f.Value] ∧
      (c.SetQueryParams StringsMap.empty).2 (filterKey i j "conditionType") =
        some [f.ConditionType]) ∧
    (∀ i s, c.sortOrders[i]? = some s →
      (c.SetQueryParams StringsMap.empty).2 (sortKey i "field") = some [s.field] ∧
      (c.SetQueryParams StringsMap.empty).2 (sortKey i "direction") = some [s.direction]) ∧
    (∀ k, (c.SetQueryParams StringsMap.empty).2 k ≠ none →
      (∃ i j g f, c.filterGroups[i]? = some g ∧ g.filters[j]? = some f ∧
        (k = filterKey i j "field" ∨ k = filterKey i j "value" ∨
          k = filterKey i j "conditionType")) ∨
      (∃ i s, c.sortOrders[i]? = some s ∧
        (k = sortKey i "field" ∨ k = sortKey i "direction")) ∨
      k = "searchCriteria[currentPage]" ∨ k = "searchCriteria[pageSize]") ∧
    (∀ i j p i' j' p', filterKey i j p = filterKey i' j' p' → i = i' ∧ j = j' ∧ p = p') ∧
    (∀ i p i' p', sortKey i p = sortKey i' p' → i = i' ∧ p = p') ∧
    (∀ i j p i' p', filterKey i j p ≠ sortKey i' p') := by
  refine ⟨?_, ?_, ?_, fun i j p i' j' p' => filterKey_inj i j i' j' p p',
    fun i p i' p' => sortKey_inj i i' p p',
    fun i j p i' p' => filterKey_ne_sortKey i j i' p p'⟩
  · intro i j g f hi hj
    exact encode_filter c i j g f hi hj
  · intro i s hi
    exact ⟨(encode_some_iff c _ _).mpr (Or.inr (Or.inl ⟨i, s, hi, Or.inl ⟨rfl, rfl⟩⟩)),
      (encode_some_iff c _ _).mpr (Or.inr (Or.inl ⟨i, s, hi, Or.inr ⟨rfl, rfl⟩⟩))⟩
  · intro k hk
    obtain ⟨x, _, he⟩ := encode_present c k hk
    rcases he with ⟨i, j, g, f, hi, hj, he⟩ | ⟨i, s, hi, he⟩ | ⟨p, _, hk, _⟩ | ⟨p, _, hk, _⟩
    · refine Or.inl ⟨i, j, g, f, hi, hj, ?_⟩
      rcases he with ⟨h, _⟩ | ⟨h, _⟩ | ⟨h, _⟩
      · exact Or.inl h
      · exact Or.inr (Or.inl h)
      · exact Or.inr (Or.inr h)
    · refine Or.inr (Or.inl ⟨i, s, hi, ?_⟩)
      rcases he with ⟨h, _⟩ | ⟨h, _⟩
      · exact Or.inl h
      · exact Or.inr h
    · exact Or.inr (Or.inr (Or.inl hk))
    · exact Or.inr (Or.inr (Or.inr hk))

/-- C1, on the specification's example: groups `G0 = (f0, f1)` and `G1 = (f2)` are encoded
under the indices `[0][0]`, `[0][1]` and `[1][0]`, whatever the field names are. -/
theorem setQueryParams_index_fidelity_witness :
    (indexExample.SetQueryParams StringsMap.empty).2
        "searchCriteria[filterGroups][0][filters][0][field]" = some ["zip"] ∧
    (indexExample.SetQueryParams StringsMap.empty).2
        "searchCriteria[filterGroups][0][filters][1][field]" = some ["name"] ∧
    (indexExample.SetQueryParams StringsMap.empty).2
        "searchCriteria[filterGroups][1][filters][0][field]" = some ["age"] ∧
    (indexExample.SetQueryParams StringsMap.empty).2
        "searchCriteria[filterGroups][1][filters][0][conditionType]" = some ["gt"] ∧
    (indexExample.SetQueryParams StringsMap.empty).2
        "searchCriteria[sortOrders][0][direction]" = some ["ASC"] :=
  ⟨((setQueryParams_index_fidelity indexExample).1 0 0 _ _ rfl rfl).1,
   ((setQueryParams_index_fidelity indexExample).1 0 1 _ _ rfl rfl).1,
   ((setQueryParams_index_fidelity indexExample).1 1 0 _ _ rfl rfl).1,
   ((setQueryParams_index_fidelity indexExample).1 1 0 _ _ rfl rfl).2.2,
   ((setQueryParams_index_fidelity indexExample).2.1 0 _ rfl).2⟩

/-- C4. Attaching a group without filters returns an error and leaves the criteria, and so
its encoding, unchanged; attaching a group with at least one filter returns no error and
appends the group to the filter groups, leaving everything else unchanged. -/
theorem addFilterGroup_spec (c : SearchCriteria) (g : SearchCriteriaFilterGroup) :
    (g.filters = [] →
      (c.AddFilterGroup g).2 ≠ none ∧ (c.AddFilterGroup g).1 = c ∧
      ∀ v, ((c.AddFilterGroup g).1.SetQueryParams v).2 = (c.SetQueryParams v).2) ∧
    (g.filters ≠ [] →
      (c.AddFilterGroup g).2 = none ∧
      (c.AddFilterGroup g).1.filterGroups = c.filterGroups ++ [g] ∧
      (c.AddFilterGroup g).1.sortOrders = c.sortOrders ∧
      (c.AddFilterGroup g).1.currentPage = c.currentPage ∧
      (c.AddFilterGroup g).1.pageSize = c.pageSize) := by
  constructor
  · intro h
    simp [SearchCriteria.AddFilterGroup, h]
  · intro h
    have : g.filters.length ≠ 0 := fun h0 => h (List.length_eq_zero.mp h0)
    simp [SearchCriteria.AddFilterGroup, this]

/-- C4, on an example: an empty group is rejected by a criteria that holds a page size, and
a one-filter group is appended. -/
theorem addFilterGroup_spec_witness :
    (((NewSearchCriteria.SetPageSize 20).AddFilterGroup NewSearchCriteriaFilterGroup).2 ≠ none ∧
      ((NewSearchCriteria.SetPageSize 20).AddFilterGroup NewSearchCriteriaFilterGroup).1 =
        NewSearchCriteria.SetPageSize 20) ∧
    ((NewSearchCriteria.AddFilterGroup
        { filters := [{ Field := "a", Value := "b", ConditionType := "eq" }] }).2 = none ∧
      (NewSearchCriteria.AddFilterGroup
        { filters := [{ Field := "a", Value := "b", ConditionType := "eq" }] }).1.filterGroups =
        [{ filters := [{ Field := "a", Value := "b", ConditionType := "eq" }] }]) :=
  ⟨⟨((addFilterGroup_spec (NewSearchCriteria.SetPageSize 20)
        NewSearchCriteriaFilterGroup).1 rfl).1,
    ((addFilterGroup_spec (NewSearchCriteria.SetPageSize 20)
        NewSearchCriteriaFilterGroup).1 rfl).2.1⟩,
   ⟨((addFilterGroup_spec NewSearchCriteria
        { filters := [{ Field := "a", Value := "b", ConditionType := "eq" }] }).2
        (by decide)).1,
    ((addFilterGroup_spec NewSearchCriteria
        { filters := [{ Field := "a", Value := "b", ConditionType := "eq" }] }).2
        (by decide)).2.1⟩⟩

/-- C5. `AddSortOrder` returns an error exactly when the direction is neither `"ASC"` nor
`"DESC"`; on error the criteria is unchanged, on success the sort order is appended to the
sort-order list and everything else is unchanged. -/
theorem addSortOrder_spec (c : SearchCriteria) (s : SearchCriteriaSortOrder) :
    ((c.AddSortOrder s).2 ≠ none ↔ (s.direction ≠ "ASC" ∧ s.direction ≠ "DESC")) ∧
    ((c.AddSortOrder s).2 ≠ none → (c.AddSortOrder s).1 = c) ∧
    ((c.AddSortOrder s).2 = none →
      (c.AddSortOrder s).1.sortOrders = c.sortOrders ++ [s] ∧
      (c.AddSortOrder s).1.filterGroups = c.filterGroups ∧
      (c.AddSortOrder s).1.currentPage = c.currentPage ∧
      (c.AddSortOrder s).1.pageSize = c.pageSize) := by
  unfold SearchCriteria.AddSortOrder
  by_cases h : s.direction ≠ "ASC" ∧ s.direction ≠ "DESC"
  · simp [h]
  · simp only [h, if_false]
    simp

/-- C5, on the specification's example: direction `"UP"` is rejected and the sort-order
list is unchanged; direction `"DESC"` is accepted and appended. -/
theorem addSortOrder_spec_witness :
    ((NewSearchCriteria.AddSortOrder { field := "name", direction := "UP" }).2 ≠ none ∧
      (NewSearchCriteria.AddSortOrder { field := "name", direction := "UP" }).1 =
        NewSearchCriteria) ∧
    (NewSearchCriteria.AddSortOrder { field := "name", direction := "DESC" }).1.sortOrders =
      [{ field := "name", direction := "DESC" }] :=
  ⟨⟨by decide,
    (addSortOrder_spec NewSearchCriteria { field := "name", direction := "UP" }).2.1
      (by decide)⟩,
   ((addSortOrder_spec NewSearchCriteria { field := "name", direction := "DESC" }).2.2
      (by decide)).1⟩

/-- C6. Encoding into an empty mapping: `searchCriteria[currentPage]` is present exactly
when `currentPage` is set and then holds its decimal text, the same for
`searchCriteria[pageSize]`; with neither set neither key is present, and a criteria with no
groups, no sort orders and no pagination encodes to the empty mapping. -/
theorem setQueryParams_pagination (c : SearchCriteria) :
    (c.SetQueryParams StringsMap.empty).2 "searchCriteria[currentPage]" =
      c.currentPage.map (fun p => [itoa p]) ∧
    (c.SetQueryParams StringsMap.empty).2 "searchCriteria[pageSize]" =
      c.pageSize.map (fun p => [itoa p]) ∧
    ((c.SetQueryParams StringsMap.empty).2.Has "searchCriteria[currentPage]" =
      c.currentPage.isSome) ∧
    ((c.SetQueryParams StringsMap.empty).2.Has "searchCriteria[pageSize]" =
      c.pageSize.isSome) ∧
    (c.filterGroups = [] → c.sortOrders = [] → c.currentPage = none → c.pageSize = none →
      (c.SetQueryParams StringsMap.empty).2 = StringsMap.empty) := by
  have hcp := encode_currentPage c
  have hps := encode_pageSize c
  refine ⟨hcp, hps, ?_, ?_, ?_⟩
  · simp only [StringsMap.Has, hcp]; cases c.currentPage <;> rfl
  · simp only [StringsMap.Has, hps]; cases c.pageSize <;> rfl
  · intro hg hs hp hq
    simp [SearchCriteria.SetQueryParams, setPagination, hg, hs, hp, hq, setFilterGroups,
      setSortOrders]

/-- C6, on examples: a criteria with page 2 and size 50 holds exactly these decimal texts,
and the fresh criteria encodes to the empty mapping. -/
theorem setQueryParams_pagination_witness :
    (((NewSearchCriteria.SetCurrentPage 2).SetPageSize 50).SetQueryParams StringsMap.empty).2
        "searchCriteria[currentPage]" = some ["2"] ∧
    (((NewSearchCriteria.SetCurrentPage 2).SetPageSize 50).SetQueryParams StringsMap.empty).2
        "searchCriteria[pageSize]" = some ["50"] ∧
    (NewSearchCriteria.SetQueryParams StringsMap.empty).2 = StringsMap.empty :=
  ⟨(setQueryParams_pagination ((NewSearchCriteria.SetCurrentPage 2).SetPageSize 50)).1,
   (setQueryParams_pagination ((NewSearchCriteria.SetCurrentPage 2).SetPageSize 50)).2.1,
   (setQueryParams_pagination NewSearchCriteria).2.2.2.2 rfl rfl rfl rfl⟩

/-- C7. Encoding is read-only, deterministic and idempotent: `SetQueryParams` returns the
criteria it was given, two passes that each start from the empty mapping give the same
mapping, and a second pass over the result of a first pass changes nothing. -/
theorem setQueryParams_deterministic_idempotent (c : SearchCriteria) :
    (∀ v, (c.SetQueryParams v).1 = c) ∧
    ((c.SetQueryParams StringsMap.empty).1.SetQueryParams StringsMap.empty).2 =
      (c.SetQueryParams StringsMap.empty).2 ∧
    (∀ v, ((c.SetQueryParams v).1.SetQueryParams (c.SetQueryParams v).2).2 =
      (c.SetQueryParams v).2) := by
  refine ⟨fun _ => rfl, rfl, fun v => ?_⟩
  show (c.SetQueryParams (c.SetQueryParams v).2).2 = (c.SetQueryParams v).2
  rw [SetQueryParams_eq, SetQueryParams_eq, applySets_idem]

/-! ## Reachable states of the builder -/

/-- What `AddFilterGroup` and `AddSortOrder` let through. -/
theorem apply_preserves_valid (c : SearchCriteria) (op : BuilderOp)
    (hg : ∀ g ∈ c.filterGroups, g.filters ≠ [])
    (hs : ∀ s ∈ c.sortOrders, s.direction = "ASC" ∨ s.direction = "DESC") :
    (∀ g ∈ (op.apply c).filterGroups, g.filters ≠ []) ∧
    (∀ s ∈ (op.apply c).sortOrders, s.direction = "ASC" ∨ s.direction = "DESC") := by
  cases op with
  | addFilterGroup g =>
    simp only [BuilderOp.apply, SearchCriteria.AddFilterGroup]
    split
    · exact ⟨hg, hs⟩
    · rename_i hlen
      refine ⟨?_, hs⟩
      intro g' hg'
      rcases List.mem_append.mp hg' with h | h
      · exact hg g' h
      · simp only [List.mem_singleton] at h
        subst h
        exact fun h0 => hlen (by rw [h0]; rfl)
  | addSortOrder s =>
    simp only [BuilderOp.apply, SearchCriteria.AddSortOrder]
    split
    · exact ⟨hg, hs⟩
    · rename_i hdir
      refine ⟨hg, ?_⟩
      intro s' hs'
      rcases List.mem_append.mp hs' with h | h
      · exact hs s' h
      · simp only [List.mem_singleton] at h
        subst h
        by_cases ha : s'.direction = "ASC"
        · exact Or.inl ha
        · by_cases hd : s'.direction = "DESC"
          · exact Or.inr hd
          · exact absurd ⟨ha, hd⟩ hdir
  | setCurrentPage i => exact ⟨hg, hs⟩
  | setPageSize i => exact ⟨hg, hs⟩

theorem runOps_valid (ops : List BuilderOp) : ∀ c : SearchCriteria,
    (∀ g ∈ c.filterGroups, g.filters ≠ []) →
    (∀ s ∈ c.sortOrders, s.direction = "ASC" ∨ s.direction = "DESC") →
    (∀ g ∈ (runOps ops c).filterGroups, g.filters ≠ []) ∧
    (∀ s ∈ (runOps ops c).sortOrders, s.direction = "ASC" ∨ s.direction = "DESC") := by
  induction ops with
  | nil => intro c hg hs; exact ⟨hg, hs⟩
  | cons op ops ih =>
    intro c hg hs
    obtain ⟨hg1, hs1⟩ := apply_preserves_valid c op hg hs
    exact ih (op.apply c) hg1 hs1

/-- C9. In every criteria reached from `NewSearchCriteria` by builder calls, failed ones
included, each attached group has a filter and each attached sort order has direction
`"ASC"` or `"DESC"`; so every encoded sort direction is `"ASC"` or `"DESC"`, and a group
index with any encoded key has all three keys of its filter 0 encoded. -/
theorem builder_invariant (ops : List BuilderOp) :
    (∀ g ∈ (runOps ops NewSearchCriteria).filterGroups, g.filters ≠ []) ∧
    (∀ s ∈ (runOps ops NewSearchCriteria).sortOrders,
      s.direction = "ASC" ∨ s.direction = "DESC") ∧
    (∀ i x, ((runOps ops NewSearchCriteria).SetQueryParams StringsMap.empty).2
        (sortKey i "direction") = some x → x = ["ASC"] ∨ x = ["DESC"]) ∧
    (∀ i j p, ((runOps ops NewSearchCriteria).SetQueryParams StringsMap.empty).2
        (filterKey i j p) ≠ none →
      ((runOps ops NewSearchCriteria).SetQueryParams StringsMap.empty).2
        (filterKey i 0 "field") ≠ none ∧
      ((runOps ops NewSearchCriteria).SetQueryParams StringsMap.empty).2
        (filterKey i 0 "value") ≠ none ∧
      ((runOps ops NewSearchCriteria).SetQueryParams StringsMap.empty).2
        (filterKey i 0 "conditionType") ≠ none) := by
  obtain ⟨hg, hs⟩ := runOps_valid ops NewSearchCriteria
    (by intro g h; simp [NewSearchCriteria] at h) (by intro s h; simp [NewSearchCriteria] at h)
  refine ⟨hg, hs, ?_, ?_⟩
  · intro i x hx
    obtain ⟨y, hy, he⟩ := encode_present _ _ (by rw [hx]; exact Option.some_ne_none x)
    rw [hx] at hy
    simp only [Option.some.injEq] at hy
    subst hy
    rcases he with ⟨i', j, g, f, _, _, he⟩ | ⟨i', s, hi', he⟩ | ⟨p, _, hk, _⟩ | ⟨p, _, hk, _⟩
    · rcases he with ⟨h, _⟩ | ⟨h, _⟩ | ⟨h, _⟩ <;>
        exact absurd h.symm (filterKey_ne_sortKey _ _ _ _ _)
    · rcases he with ⟨h, _⟩ | ⟨h, hv⟩
      · exact absurd (sortKey_inj _ _ _ _ h).2 (by decide)
      · have hmem : s ∈ (runOps ops NewSearchCriteria).sortOrders :=
          List.getElem?_mem hi'
        rcases hs s hmem with hd | hd
        · exact Or.inl (by rw [hv, hd])
        · exact Or.inr (by rw [hv, hd])
    · exact absurd hk (sortKey_ne_currentPage _ _)
    · exact absurd hk (sortKey_ne_pageSize _ _)
  · intro i j p hp
    obtain ⟨y, _, he⟩ := encode_present _ _ hp
    rcases he with ⟨i', j', g, f, hi', hj', he⟩ | ⟨i', s, _, he⟩ | ⟨_, _, hk, _⟩ | ⟨_, _, hk, _⟩
    · have hii : i = i' := by
        rcases he with ⟨h, _⟩ | ⟨h, _⟩ | ⟨h, _⟩ <;> exact (filterKey_inj _ _ _ _ _ _ h).1
      subst hii
      have hmem : g ∈ (runOps ops NewSearchCriteria).filterGroups := List.getElem?_mem hi'
      have hne := hg g hmem
      obtain ⟨f0, fs, hfs⟩ := List.exists_cons_of_ne_nil hne
      have h0 : g.filters[0]? = some f0 := by rw [hfs]; simp
      have := encode_filter (runOps ops NewSearchCriteria) i 0 g f0 hi' h0
      exact ⟨by rw [this.1]; exact Option.some_ne_none _,
        by rw [this.2.1]; exact Option.some_ne_none _,
        by rw [this.2.2]; exact Option.some_ne_none _⟩
    · rcases he with ⟨h, _⟩ | ⟨h, _⟩ <;> exact absurd h (filterKey_ne_sortKey _ _ _ _ _)
    · exact absurd hk (filterKey_ne_currentPage _ _ _)
    · exact absurd hk (filterKey_ne_pageSize _ _ _)

/-- C9, on an example: after a rejected empty group, a rejected direction `"UP"`, an
accepted group and an accepted direction `"DESC"`, one group and one sort order are
attached and the encoded direction is `"DESC"`. -/
theorem builder_invariant_witness :
    (runOps [.addFilterGroup { filters := [] },
        .addSortOrder { field := "name", direction := "UP" },
        .addFilterGroup { filters := [{ Field := "a", Value := "b", ConditionType := "eq" }] },
        .addSortOrder { field := "name", direction := "DESC" }]
      NewSearchCriteria).filterGroups.length = 1 ∧
    (∀ s ∈ (runOps [.addFilterGroup { filters := [] },
        .addSortOrder { field := "name", direction := "UP" },
        .addFilterGroup { filters := [{ Field := "a", Value := "b", ConditionType := "eq" }] },
        .addSortOrder { field := "name", direction := "DESC" }]
      NewSearchCriteria).sortOrders, s.direction = "ASC" ∨ s.direction = "DESC") :=
  ⟨by decide,
   (builder_invariant [.addFilterGroup { filters := [] },
        .addSortOrder { field := "name", direction := "UP" },
        .addFilterGroup { filters := [{ Field := "a", Value := "b", ConditionType := "eq" }] },
        .addSortOrder { field := "name", direction := "DESC" }]).2.1⟩

theorem apply_pages (c : SearchCriteria) (op : BuilderOp) :
    (op.apply c).currentPage =
      (match op with
        | .setCurrentPage i => some i
        | _ => c.currentPage) ∧
    (op.apply c).pageSize =
      (match op with
        | .setPageSize i => some i
        | _ => c.pageSize) := by
  cases op with
  | addFilterGroup g =>
    simp only [BuilderOp.apply, SearchCriteria.AddFilterGroup]
    split <;> exact ⟨rfl, rfl⟩
  | addSortOrder s =>
    simp only [BuilderOp.apply, SearchCriteria.AddSortOrder]
    split <;> exact ⟨rfl, rfl⟩
  | setCurrentPage i => exact ⟨rfl, rfl⟩
  | setPageSize i => exact ⟨rfl, rfl⟩

theorem runOps_pages (ops : List BuilderOp) : ∀ c : SearchCriteria,
    (runOps ops c).currentPage =
      (match lastCurrentPage ops with
        | some i => some i
        | none => c.currentPage) ∧
    (runOps ops c).pageSize =
      (match lastPageSize ops with
        | some i => some i
        | none => c.pageSize) := by
  induction ops with
  | nil => intro c; exact ⟨rfl, rfl⟩
  | cons op ops ih =>
    intro c
    have h := ih (op.apply c)
    have ha := apply_pages c op
    simp only [runOps, List.foldl] at h ⊢
    simp only [lastCurrentPage, lastPageSize]
    refine ⟨?_, ?_⟩
    · rw [h.1]
      cases lastCurrentPage ops with
      | some i => rfl
      | none => rw [ha.1]; cases op <;> rfl
    · rw [h.2]
      cases lastPageSize ops with
      | some i => rfl
      | none => rw [ha.2]; cases op <;> rfl

theorem lastCurrentPage_mem (ops : List BuilderOp) (i : Int) :
    lastCurrentPage ops = some i → BuilderOp.setCurrentPage i ∈ ops := by
  induction ops with
  | nil => intro h; cases h
  | cons op ops ih =>
    simp only [lastCurrentPage]
    cases h : lastCurrentPage ops with
    | some j =>
      intro hj
      simp only [Option.some.injEq] at hj
      subst hj
      exact List.mem_cons_of_mem _ (ih h)
    | none =>
      cases op <;> simp
      intro hi
      exact Or.inl hi.symm

theorem lastPageSize_mem (ops : List BuilderOp) (i : Int) :
    lastPageSize ops = some i → BuilderOp.setPageSize i ∈ ops := by
  induction ops with
  | nil => intro h; cases h
  | cons op ops ih =>
    simp only [lastPageSize]
    cases h : lastPageSize ops with
    | some j =>
      intro hj
      simp only [Option.some.injEq] at hj
      subst hj
      exact List.mem_cons_of_mem _ (ih h)
    | none =>
      cases op <;> simp
      intro hi
      exact Or.inl hi.symm

/-- C10, as stated, fails: `SetCurrentPage(0)` and `SetPageSize(-5)` are accepted, the
criteria then holds a current page and a page size below 1, and they are encoded as `"0"`
and `"-5"`. -/
theorem pages_not_positive :
    (runOps [.setCurrentPage 0, .setPageSize (-5)] NewSearchCriteria).currentPage = some 0 ∧
    (runOps [.setCurrentPage 0, .setPageSize (-5)] NewSearchCriteria).pageSize = some (-5) ∧
    ¬ ((1 : Int) ≤ 0) ∧ ¬ ((1 : Int) ≤ -5) ∧
    ((runOps [.setCurrentPage 0, .setPageSize (-5)] NewSearchCriteria).SetQueryParams
      StringsMap.empty).2 "searchCriteria[currentPage]" = some ["0"] ∧
    ((runOps [.setCurrentPage 0, .setPageSize (-5)] NewSearchCriteria).SetQueryParams
      StringsMap.empty).2 "searchCriteria[pageSize]" = some ["-5"] := by
  decide

/-- C10, amended. In every criteria reached from `NewSearchCriteria` by builder calls,
`currentPage` is the argument of the last `SetCurrentPage` call (unset when there was
none) and `pageSize` the argument of the last `SetPageSize` call, whatever integers were
passed; the encoded values are their decimal texts; and they are at least 1 when every
argument passed was at least 1. -/
theorem pages_last_written (ops : List BuilderOp) :
    (runOps ops NewSearchCriteria).currentPage = lastCurrentPage ops ∧
    (runOps ops NewSearchCriteria).pageSize = lastPageSize ops ∧
    ((runOps ops NewSearchCriteria).SetQueryParams StringsMap.empty).2
      "searchCriteria[currentPage]" = (lastCurrentPage ops).map (fun p => [itoa p]) ∧
    ((runOps ops NewSearchCriteria).SetQueryParams StringsMap.empty).2
      "searchCriteria[pageSize]" = (lastPageSize ops).map (fun p => [itoa p]) ∧
    ((∀ i, BuilderOp.setCurrentPage i ∈ ops → 1 ≤ i) →
      ∀ p, (runOps ops NewSearchCriteria).currentPage = some p → 1 ≤ p) ∧
    ((∀ i, BuilderOp.setPageSize i ∈ ops → 1 ≤ i) →
      ∀ p, (runOps ops NewSearchCriteria).pageSize = some p → 1 ≤ p) := by
  have h := runOps_pages ops NewSearchCriteria
  have hc : (runOps ops NewSearchCriteria).currentPage = lastCurrentPage ops := by
    rw [h.1]; cases lastCurrentPage ops <;> rfl
  have hp : (runOps ops NewSearchCriteria).pageSize = lastPageSize ops := by
    rw [h.2]; cases lastPageSize ops <;> rfl
  refine ⟨hc, hp, ?_, ?_, ?_, ?_⟩
  · rw [encode_currentPage, hc]
  · rw [encode_pageSize, hp]
  · intro hall p hcp
    rw [hc] at hcp
    exact hall p (lastCurrentPage_mem ops p hcp)
  · intro hall p hps
    rw [hp] at hps
    exact hall p (lastPageSize_mem ops p hps)

/-- C10 amended, on an example: the last of two `SetCurrentPage` calls wins, and with
arguments 3 and 7 the page that is set is at least 1. -/
theorem pages_last_written_witness :
    (runOps [.setCurrentPage 3, .setPageSize 25, .setCurrentPage 7]
      NewSearchCriteria).currentPage = some 7 ∧
    (1 : Int) ≤ 7 :=
  ⟨(pages_last_written [.setCurrentPage 3, .setPageSize 25, .setCurrentPage 7]).1,
   (pages_last_written [.setCurrentPage 3, .setPageSize 25, .setCurrentPage 7]).2.2.2.2.1
     (by intro i hi; simp at hi; rcases hi with h | h <;> simp [h]) 7 rfl⟩

/-! ## The request/response pipeline -/

/-- A request made by `http.NewRequest` has an empty header. -/
theorem httpNewRequest_header {P W : Type} (lib : Lib P W) (method url : String)
    (body : Option W) (r : Request W) (h : httpNewRequest lib method url body = .ok r) :
    r.Header = StringsMap.empty := by
  unfold httpNewRequest at h
  simp only at h
  by_cases hv : lib.validMethod (if method = "" then "GET" else method) = true
  · rw [if_pos hv] at h
    cases hu : lib.urlParse url with
    | error err => rw [hu] at h; cases h
    | ok u =>
      rw [hu] at h
      simp only [Except.ok.injEq] at h
      rw [← h]
  · rw [if_neg hv] at h
    cases h

/-- C3. When `newRequest` succeeds, the header of the request holds `Accept:
application/json`, `User-Agent` with the configured user agent, `Authorization: Bearer
<credential>` exactly when the credential is not empty, `Content-Type: application/json`
exactly when a payload is present, and no other key. -/
theorem newRequest_headers {P W : Type} (lib : Lib P W) (c : Client W) (method url : String)
    (payload : Option P) (req : Request W)
    (h : c.newRequest lib method url payload = .ok req) :
    req.Header "Accept" = some ["application/json"] ∧
    req.Header "User-Agent" = some [c.userAgent] ∧
    req.Header "Authorization" =
      (if c.apiKey ≠ "" then some ["Bearer " ++ c.apiKey] else none) ∧
    req.Header "Content-Type" =
      (if payload.isSome then some ["application/json"] else none) ∧
    (∀ k, k ≠ "Accept" → k ≠ "User-Agent" → k ≠ "Authorization" → k ≠ "Content-Type" →
      req.Header k = none) := by
  unfold Client.newRequest at h
  cases payload with
  | none =>
    simp only at h
    cases hreq : httpNewRequest lib method (c.baseURL ++ url) (none : Option W) with
    | error err => rw [hreq] at h; cases h
    | ok r =>
      rw [hreq] at h
      simp only [Except.ok.injEq] at h
      have hr : r.Header = StringsMap.empty := httpNewRequest_header lib _ _ _ r hreq
      subst h
      simp only [hr]
      by_cases hk : c.apiKey = ""
      · simp [hk, StringsMap.Add, StringsMap.empty, contentType]
        intro k h1 h2 _ _
        simp [h1, h2]
      · simp [hk, StringsMap.Add, StringsMap.empty, contentType]
        intro k h1 h2 h3 _
        simp [h1, h2, h3]
  | some p =>
    simp only at h
    cases hm : lib.jsonMarshal p with
    | error err => rw [hm] at h; cases h
    | ok b =>
      rw [hm] at h
      simp only at h
      cases hreq : httpNewRequest lib method (c.baseURL ++ url) (some b) with
      | error err => rw [hreq] at h; cases h
      | ok r =>
        rw [hreq] at h
        simp only [Except.ok.injEq] at h
        have hr : r.Header = StringsMap.empty := httpNewRequest_header lib _ _ _ r hreq
        subst h
        simp only [hr]
        by_cases hk : c.apiKey = ""
        · simp [hk, StringsMap.Add, StringsMap.empty, contentType]
          intro k h1 h2 _ h4
          simp [h1, h2, h4]
        · simp [hk, StringsMap.Add, StringsMap.empty, contentType]
          intro k h1 h2 h3 h4
          simp [h1, h2, h3, h4]

/-- C3, on the specification's examples: the credential `"tok123"` gives `Authorization:
Bearer tok123` and, without a payload, no `Content-Type`; no credential gives no
`Authorization` header and, with a payload, `Content-Type: application/json`. -/
theorem newRequest_headers_witness :
    (tokClient.newRequest exampleLib "GET" "/customers/search" none = .ok tokRequest ∧
      tokRequest.Header "Authorization" = some ["Bearer tok123"] ∧
      tokRequest.Header "Content-Type" = none) ∧
    (anonClient.newRequest exampleLib "POST" "/customers" (some (.obj [])) = .ok anonRequest ∧
      anonRequest.Header "Authorization" = none ∧
      anonRequest.Header "Content-Type" = some ["application/json"]) :=
  ⟨⟨rfl,
    (newRequest_headers exampleLib tokClient "GET" "/customers/search" none tokRequest rfl).2.2.1,
    (newRequest_headers exampleLib tokClient "GET" "/customers/search" none tokRequest
      rfl).2.2.2.1⟩,
   ⟨rfl,
    (newRequest_headers exampleLib anonClient "POST" "/customers" (some (.obj [])) anonRequest
      rfl).2.2.1,
    (newRequest_headers exampleLib anonClient "POST" "/customers" (some (.obj [])) anonRequest
      rfl).2.2.2.1⟩⟩

/-- On a status mismatch, a body that decodes into the error shape with message `m` makes
`do` return the `APIError` with the observed status code and message `m`, whatever
`json.Unmarshal` is, and leaves the target untouched. -/
theorem do_mismatch_of_decoded {W T : Type} (c : Client W)
    (unmarshalMessage : Unmarshal W String) (unmarshal : Unmarshal W T) (req : Request W)
    (expectedStatusCode : Int) (expectedRespBody : Option T) (resp : Response W) (body : W)
    (m : String)
    (hsend : c.httpClient.Do req = .ok resp)
    (hne : resp.StatusCode ≠ expectedStatusCode)
    (hbody : resp.Body = .ok body)
    (hmsg : unmarshalMessage body "" = (m, none)) :
    c.do_ unmarshalMessage unmarshal req expectedStatusCode expectedRespBody =
      (some (.api { StatusCode := resp.StatusCode, Message := m }), expectedRespBody) := by
  unfold Client.do_
  rw [hsend]
  simp only
  rw [if_pos (fun h => hne h.symm)]
  simp only [readBody, hbody, unmarshalAPIError, hmsg]

/-- Members whose keys match no field leave the struct as it is. -/
theorem decMember_skip {T : Type} (field : String → Option (Dec T))
    (ms : List (String × JSON)) (h : ∀ kv ∈ ms, field (foldName kv.1) = none) :
    ∀ acc : T × Option GoError, ms.foldl (decMember field) acc = acc := by
  induction ms with
  | nil => intro acc; rfl
  | cons kv ms ih =>
    intro acc
    simp only [List.foldl]
    have h1 : decMember field acc kv = acc := by
      unfold decMember
      rw [h kv (List.mem_cons_self _ _)]
    rw [h1]
    exact ih (fun kv1 hkv => h kv1 (List.mem_cons_of_mem _ hkv)) acc

/-- The model of `encoding/json`: an object in which `message` holds the string `m` and
no other key matches `message` decodes into the error shape with message `m`. -/
theorem decAPIErrorMessage_object (before after : List (String × JSON)) (m old : String)
    (hb : ∀ kv ∈ before, foldName kv.1 ≠ "message")
    (ha : ∀ kv ∈ after, foldName kv.1 ≠ "message") :
    jsonUnmarshal decAPIErrorMessage
      (some (.obj (before ++ ("message", .str m) :: after))) old = (m, none) := by
  have hf : foldName "message" = "message" := by decide
  simp only [jsonUnmarshal, decAPIErrorMessage, decStruct, List.foldl_append, List.foldl]
  rw [decMember_skip _ before (fun kv hkv => by simp [hb kv hkv])]
  have h1 : decMember (fun key => if key = "message" then some decString else none)
      (old, none) ("message", .str m) = (m, none) := by
    simp [decMember, hf, decString, saveError]
  rw [h1]
  exact decMember_skip _ after (fun kv hkv => by simp [ha kv hkv]) _

/-- C2, as stated, fails. With status 404 where 200 was expected, the body
`{"message":"first","Message":"second"}` is a JSON object with the `message` string
`"first"`, yet `do` returns `APIError{404, "second"}`: `encoding/json` matches keys to the
tag without regard to case and the last match wins. The body `{"message":"m","MESSAGE":5}`
is a JSON object with the `message` string `"m"`, yet `do` returns an error that is not an
`APIError`. -/
theorem do_status_mismatch_other_message_key :
    (NewClient (cannedHTTP 404 twoMessageKeysBody) "http://shop.test" []).do_
        (jsonUnmarshal decAPIErrorMessage) (jsonUnmarshal decCustomersEnvelope) tokRequest 200
        none =
      (some (.api { StatusCode := 404, Message := "second" }), none) ∧
    ((NewClient (cannedHTTP 404 twoMessageKeysBody) "http://shop.test" []).do_
        (jsonUnmarshal decAPIErrorMessage) (jsonUnmarshal decCustomersEnvelope) tokRequest 200
        none).1 ≠
      some (.api { StatusCode := 404, Message := "first" }) ∧
    ((NewClient (cannedHTTP 404 numberMessageBody) "http://shop.test" []).do_
        (jsonUnmarshal decAPIErrorMessage) (jsonUnmarshal decCustomersEnvelope) tokRequest 200
        none).1.map GoError.isAPIError = some false ∧
    ((NewClient (cannedHTTP 404 numberMessageBody) "http://shop.test" []).do_
        (jsonUnmarshal decAPIErrorMessage) (jsonUnmarshal decCustomersEnvelope) tokRequest 200
        none).1 ≠
      some (.api { StatusCode := 404, Message := "m" }) := by
  decide

/-- C2, amended. When the observed status code differs from the expected one and the body
is a JSON object in which `message` holds the string `m` and no other key matches
`message` when case is ignored, `do` returns the `APIError` whose `StatusCode` is the
observed code (never a value from the body) and whose `Message` is `m`, with or without a
target, and leaves the target untouched. -/
theorem do_status_mismatch_sole_message {T : Type} (c : Client Wire)
    (unmarshal : Unmarshal Wire T) (req : Request Wire) (expectedStatusCode : Int)
    (expectedRespBody : Option T) (resp : Response Wire)
    (before after : List (String × JSON)) (m : String)
    (hsend : c.httpClient.Do req = .ok resp)
    (hne : resp.StatusCode ≠ expectedStatusCode)
    (hbody : resp.Body = .ok (some (.obj (before ++ ("message", .str m) :: after))))
    (hb : ∀ kv ∈ before, foldName kv.1 ≠ "message")
    (ha : ∀ kv ∈ after, foldName kv.1 ≠ "message") :
    c.do_ (jsonUnmarshal decAPIErrorMessage) unmarshal req expectedStatusCode
        expectedRespBody =
      (some (.api { StatusCode := resp.StatusCode, Message := m }), expectedRespBody) :=
  do_mismatch_of_decoded c (jsonUnmarshal decAPIErrorMessage) unmarshal req expectedStatusCode
    expectedRespBody resp _ m hsend hne hbody (decAPIErrorMessage_object before after m "" hb ha)

/-- C2 amended, on the specification's example: status 404 where 200 was expected and the
body `{"message":"Resource not found"}` give `APIError{404, "Resource not found"}`, without
a target and with one; so does `{"code":404,"message":"Resource not found","trace":null}`,
whose `code` member does not reach the status code. -/
theorem do_status_mismatch_sole_message_witness :
    (NewClient (cannedHTTP 404 notFoundBody) "http://shop.test" []).do_
        (jsonUnmarshal decAPIErrorMessage) (jsonUnmarshal decCustomersEnvelope) tokRequest 200
        none =
      (some (.api { StatusCode := 404, Message := "Resource not found" }), none) ∧
    (NewClient (cannedHTTP 404 notFoundBody) "http://shop.test" []).do_
        (jsonUnmarshal decAPIErrorMessage) (jsonUnmarshal decCustomersEnvelope) tokRequest 200
        (some { Items := [] }) =
      (some (.api { StatusCode := 404, Message := "Resource not found" }),
        some { Items := [] }) ∧
    (NewClient (cannedHTTP 500 paddedNotFoundBody) "http://shop.test" []).do_
        (jsonUnmarshal decAPIErrorMessage) (jsonUnmarshal decCustomersEnvelope) tokRequest 200
        none =
      (some (.api { StatusCode := 500, Message := "Resource not found" }), none) :=
  ⟨do_status_mismatch_sole_message
      (NewClient (cannedHTTP 404 notFoundBody) "http://shop.test" [])
      (jsonUnmarshal decCustomersEnvelope) tokRequest 200 none
      { StatusCode := 404, Body := .ok notFoundBody } [] [] "Resource not found"
      rfl (by decide) rfl (by simp) (by simp),
   do_status_mismatch_sole_message
      (NewClient (cannedHTTP 404 notFoundBody) "http://shop.test" [])
      (jsonUnmarshal decCustomersEnvelope) tokRequest 200 (some { Items := [] })
      { StatusCode := 404, Body := .ok notFoundBody } [] [] "Resource not found"
      rfl (by decide) rfl (by simp) (by simp),
   do_status_mismatch_sole_message
      (NewClient (cannedHTTP 500 paddedNotFoundBody) "http://shop.test" [])
      (jsonUnmarshal decCustomersEnvelope) tokRequest 200 none
      { StatusCode := 500, Body := .ok paddedNotFoundBody } [("code", .int 404)]
      [("trace", .null)] "Resource not found"
      rfl (by decide) rfl
      (by intro kv hkv; simp only [List.mem_singleton] at hkv; subst hkv; decide)
      (by intro kv hkv; simp only [List.mem_singleton] at hkv; subst hkv; decide)⟩

/-- C8. When the observed status code equals the expected one, `do` never returns an
`APIError`; without a target it returns no error whatever the body is (a body that cannot
be read included); with a target it returns no error exactly when the body is read and
decodes into the target, the target then holds the decoded value, and any error is the
wrapped read error or the wrapped decoding error. -/
theorem do_status_match {W T : Type} (c : Client W) (unmarshalMessage : Unmarshal W String)
    (unmarshal : Unmarshal W T) (req : Request W) (expectedStatusCode : Int)
    (resp : Response W)
    (hsend : c.httpClient.Do req = .ok resp)
    (heq : resp.StatusCode = expectedStatusCode) :
    (∀ target err,
      (c.do_ unmarshalMessage unmarshal req expectedStatusCode target).1 = some err →
      err.isAPIError = false) ∧
    c.do_ unmarshalMessage unmarshal req expectedStatusCode none = (none, none) ∧
    (∀ t, (c.do_ unmarshalMessage unmarshal req expectedStatusCode (some t)).1 = none ↔
      ∃ body, resp.Body = .ok body ∧ (unmarshal body t).2 = none) ∧
    (∀ t body, resp.Body = .ok body → (unmarshal body t).2 = none →
      c.do_ unmarshalMessage unmarshal req expectedStatusCode (some t) =
        (none, some (unmarshal body t).1)) ∧
    (∀ t body err, resp.Body = .ok body → (unmarshal body t).2 = some err →
      (c.do_ unmarshalMessage unmarshal req expectedStatusCode (some t)).1 =
        some (.wrap "could not unmarshal body into expected type" err)) ∧
    (∀ t err, resp.Body = .error err →
      (c.do_ unmarshalMessage unmarshal req expectedStatusCode (some t)).1 =
        some (.wrap "could not read response body" err)) := by
  have hdo : ∀ target, c.do_ unmarshalMessage unmarshal req expectedStatusCode target =
      (match target with
        | some t => ((readBody unmarshal resp t).2, some (readBody unmarshal resp t).1)
        | none => (none, none)) := by
    intro target
    unfold Client.do_
    rw [hsend]
    simp only
    rw [if_neg (fun h => h heq.symm)]
  have hok : ∀ t body, resp.Body = .ok body → (unmarshal body t).2 = none →
      readBody unmarshal resp t = ((unmarshal body t).1, none) := by
    intro t body hb hu
    unfold readBody
    rw [hb]
    simp only
    cases hr : unmarshal body t with
    | mk t1 e1 =>
      rw [hr] at hu
      simp only at hu
      subst hu
      rfl
  have herr : ∀ t body err, resp.Body = .ok body → (unmarshal body t).2 = some err →
      (readBody unmarshal resp t).2 =
        some (.wrap "could not unmarshal body into expected type" err) := by
    intro t body err hb hu
    unfold readBody
    rw [hb]
    simp only
    cases hr : unmarshal body t with
    | mk t1 e1 =>
      rw [hr] at hu
      simp only at hu
      subst hu
      rfl
  have hread : ∀ t err, resp.Body = .error err →
      (readBody unmarshal resp t).2 = some (.wrap "could not read response body" err) := by
    intro t err hb
    unfold readBody
    rw [hb]
  refine ⟨?_, hdo none, ?_, ?_, ?_, ?_⟩
  · intro target err h
    rw [hdo] at h
    cases target with
    | none => cases h
    | some t =>
      simp only at h
      cases hb : resp.Body with
      | error e =>
        rw [hread t e hb] at h
        simp only [Option.some.injEq] at h
        subst h; rfl
      | ok body =>
        cases hu : (unmarshal body t).2 with
        | none => rw [hok t body hb hu] at h; cases h
        | some e =>
          rw [herr t body e hb hu] at h
          simp only [Option.some.injEq] at h
          subst h; rfl
  · intro t
    rw [hdo]
    simp only
    constructor
    · intro h
      cases hb : resp.Body with
      | error e => rw [hread t e hb] at h; cases h
      | ok body =>
        refine ⟨body, rfl, ?_⟩
        cases hu : (unmarshal body t).2 with
        | none => rfl
        | some e => rw [herr t body e hb hu] at h; cases h
    · rintro ⟨body, hb, hu⟩
      rw [hok t body hb hu]
  · intro t body hb hu
    rw [hdo]
    simp only
    rw [hok t body hb hu]
  · intro t body err hb hu
    rw [hdo]
    exact herr t body err hb hu
  · intro t err hb
    rw [hdo]
    exact hread t err hb

/-- C8, on the specification's example: status 200 where 200 was expected and the body
`{"items":[{"id":1}]}` make `Search` return one customer, whose `ID` is 1, and no error;
`do` without a target returns no error on the same response. -/
theorem do_status_match_witness :
    CustomersClient.Search exampleLib (jsonUnmarshal decAPIErrorMessage)
        (jsonUnmarshal decCustomersEnvelope) tokClient.Customers NewSearchCriteria =
      ([{ Customer.zero with ID := 1 }], none) ∧
    tokClient.do_ (jsonUnmarshal decAPIErrorMessage) (jsonUnmarshal decCustomersEnvelope)
        tokRequest 200 none = (none, none) ∧
    tokClient.do_ (jsonUnmarshal decAPIErrorMessage) (jsonUnmarshal decCustomersEnvelope)
        tokRequest 200 (some { Items := [] }) =
      (none, some { Items := [{ Customer.zero with ID := 1 }] }) :=
  ⟨by decide,
   (do_status_match tokClient (jsonUnmarshal decAPIErrorMessage)
      (jsonUnmarshal decCustomersEnvelope) tokRequest 200
      { StatusCode := 200, Body := .ok oneCustomerBody } rfl rfl).2.1,
   (do_status_match tokClient (jsonUnmarshal decAPIErrorMessage)
      (jsonUnmarshal decCustomersEnvelope) tokRequest 200
      { StatusCode := 200, Body := .ok oneCustomerBody } rfl rfl).2.2.2.1
      { Items := [] } oneCustomerBody rfl (by decide)⟩

end Magento2
